import Mathlib

/-!
Verification development for the MCP mail tool (`mcp_mail.py`).

The Python source is shallowly embedded as pure Lean functions.  Strings are
`List Char`; the IMAP/SMTP network is an environment (oracle) that supplies the
outcome of each protocol call; every operation returns an explicit result value
together with the final connection state and a trace of protocol events.
-/

/-- ASCII whitespace recognised by Python's `str.strip`. -/
def isPySpace (c : Char) : Bool :=
  c = ' ' || c = '\t' || c = '\n' || c = '\r' || c = '\x0b' || c = '\x0c'

/-- Python `s.strip()`: drop leading and trailing whitespace. -/
def pyStrip (s : List Char) : List Char :=
  ((s.dropWhile isPySpace).reverse.dropWhile isPySpace).reverse

/-- One character of Python `s.replace('\n', ' ').replace('\r', ' ')`. -/
def replNl (c : Char) : Char :=
  if c = '\n' || c = '\r' then ' ' else c

/-- Decoded payload of a MIME part.  `get_payload(decode=True).decode(...)`
either yields a text or raises; the raising case is environmental (charset
lookup errors, `None` payloads) and is modelled by the `raises` constructor. -/
inductive Payload where
  | ok (text : List Char)
  | raises
deriving DecidableEq

/-- One part of an email message as seen by `walk()`. -/
structure EmailPart where
  contentType : List Char
  payload : Payload
deriving DecidableEq

/-- An email message: either single-part, or multipart with its parts listed
in `walk()` order. -/
inductive EmailMessage where
  | single (part : EmailPart)
  | multipart (parts : List EmailPart)
deriving DecidableEq

def plainCT : List Char := "text/plain".data

def htmlCT : List Char := "text/html".data

def noContentMsg : List Char := "无正文内容".data

def parseFailMsg : List Char := "正文解析失败".data

/-- Decoding a payload, as an exception-carrying computation. -/
def decodePayload : Payload → Except Unit (List Char)
  | Payload.ok s => Except.ok s
  | Payload.raises => Except.error ()

/-- The `walk()` loop of `extract_body_summary`: take the first `text/plain`
part; any other part is skipped without being decoded.  If no plain part is
found `body` keeps its initial value `""`. -/
def findPlain : List EmailPart → Except Unit (List Char)
  | [] => Except.ok []
  | p :: ps =>
      if p.contentType = plainCT then decodePayload p.payload else findPlain ps

/-- Python `re.sub(r'<[^>]+>', '', s)` with fuel (fuel `s.length` suffices):
at `'<'`, if a nonempty run of non-`'>'` characters is followed by `'>'`, the
whole `<...>` segment is removed; otherwise the character is kept. -/
def stripTagsF : Nat → List Char → List Char
  | 0, xs => xs
  | _ + 1, [] => []
  | fuel + 1, c :: rest =>
      if c = '<' ∧ rest.takeWhile (fun d => d ≠ '>') ≠ [] ∧
          rest.drop (rest.takeWhile (fun d => d ≠ '>')).length ≠ [] then
        stripTagsF fuel ((rest.drop (rest.takeWhile (fun d => d ≠ '>')).length).drop 1)
      else
        c :: stripTagsF fuel rest

/-- Python `re.sub(r'<[^>]+>', '', s)`, the tag-removal pass of
`extract_full_body`. -/
def stripTags (s : List Char) : List Char :=
  stripTagsF s.length s

/-- The `walk()` loop of `extract_full_body`: prefer the first `text/plain`
part; a `text/html` part is captured (decoded and tag-stripped) only while no
body has been captured yet, and the walk continues. -/
def walkFull : List EmailPart → List Char → Except Unit (List Char)
  | [], body => Except.ok body
  | p :: ps, body =>
      if p.contentType = plainCT then decodePayload p.payload
      else if p.contentType = htmlCT ∧ body = [] then
        match decodePayload p.payload with
        | Except.error e => Except.error e
        | Except.ok h => walkFull ps (stripTags h)
      else walkFull ps body

/-- Raw body text extracted by `extract_body_summary` before normalisation
(the try-block up to the `strip`), or an exception. -/
def bodyRawSummary : EmailMessage → Except Unit (List Char)
  | EmailMessage.single p => decodePayload p.payload
  | EmailMessage.multipart parts => findPlain parts

/-- Raw body text extracted by `extract_full_body` before normalisation, or an
exception. -/
def bodyRawFull : EmailMessage → Except Unit (List Char)
  | EmailMessage.single p => decodePayload p.payload
  | EmailMessage.multipart parts => walkFull parts []

/-- `MCPMailTool.extract_body_summary` with the default `max_length = 200`:
extract, strip, replace newlines by spaces, truncate to 200 characters with a
trailing `"..."`, and substitute the placeholders of the source. -/
def extract_body_summary (msg : EmailMessage) : List Char :=
  match bodyRawSummary msg with
  | Except.error _ => parseFailMsg
  | Except.ok b =>
      let body := (pyStrip b).map replNl
      let body := if body.length > 200 then body.take 200 ++ "...".data else body
      if body = [] then noContentMsg else body

/-- `MCPMailTool.extract_full_body`: extract (with HTML fallback), strip, and
substitute the placeholders of the source. -/
def extract_full_body (msg : EmailMessage) : List Char :=
  match bodyRawFull msg with
  | Except.error _ => parseFailMsg
  | Except.ok b =>
      let body := pyStrip b
      if body = [] then noContentMsg else body

/-- One fragment of a decoded header, as returned by the standard library's
`email.header.decode_header`: either a `str` fragment (passed through
unchanged by the source loop) or a `bytes` fragment whose charset decode is
modelled by its outcome (the byte-level decoding itself is outside this
repository). -/
inductive HeaderFragment where
  | text (s : List Char)
  | bytes (decoded : Payload)
deriving DecidableEq

/-- Text contributed by one fragment in the accumulation loop of
`decode_mime_words`; `none` when the fragment's decode raises. -/
def fragText : HeaderFragment → Option (List Char)
  | HeaderFragment.text s => some s
  | HeaderFragment.bytes (Payload.ok s) => some s
  | HeaderFragment.bytes Payload.raises => none

/-- The accumulation loop of `decode_mime_words`: concatenate the decoded
fragments in order; a raising decode aborts the whole loop. -/
def concatFrags : List HeaderFragment → Option (List Char)
  | [] => some []
  | f :: fs =>
      match fragText f, concatFrags fs with
      | some s, some r => some (s ++ r)
      | _, _ => none

/-- `MCPMailTool.decode_mime_words`, given the fragment list produced by the
standard library's `decode_header` for the raw header `raw`.  On any raised
exception the source logs a warning and returns `str(s)`, i.e. `raw` itself. -/
def decode_mime_words (raw : List Char) (frags : List HeaderFragment) : List Char :=
  match concatFrags frags with
  | some s => s
  | none => raw

/-- Modelled from the spec: the standard library's `email.header.decode_header`
(not part of this repository) splits a header into encoded-word fragments; on a
header string containing no MIME encoded words it returns the whole string as a
single text fragment with no declared encoding. -/
def decode_header_plain (s : List Char) : List HeaderFragment :=
  [HeaderFragment.text s]

/-- The MIME encoded-word introducer `"=?"` occurs somewhere in the string. -/
def containsMarker : List Char → Bool
  | [] => false
  | '=' :: '?' :: _ => true
  | _ :: rest => containsMarker rest

/-- A raw header together with its `decode_header` fragment decomposition
(environment-supplied, since `decode_header` is standard-library code). -/
structure HeaderText where
  raw : List Char
  frags : List HeaderFragment
deriving DecidableEq

/-- `self.decode_mime_words(email_message[h] or default)`: a missing or empty
header falls back to the default literal, and `decode_mime_words` on a plain
literal returns it unchanged (standard-library contract on a plain string,
inlined here). -/
def headerOrDecode (h : Option HeaderText) (dflt : List Char) : List Char :=
  match h with
  | some ht => if ht.raw = [] then dflt else decode_mime_words ht.raw ht.frags
  | none => dflt

/-- Connection-slot state of the tool: `MCPMailTool.imap_conn` and
`MCPMailTool.smtp_conn`, each holding a session identifier when live, plus a
counter supplying fresh identifiers for newly established sessions. -/
structure OpState where
  imap : Option Nat
  smtp : Option Nat
  nextSid : Nat
deriving DecidableEq

/-- Observable events of a run: session establishment, protocol calls on a
given session, the retry sleep, and the log emitted by the except branch of
each failed attempt. -/
inductive Ev where
  | connImap (sid : Nat)
  | connImapFail
  | imapSelect (sid : Nat) (folder : List Char)
  | imapSearch (sid : Nat)
  | imapFetch (sid : Nat) (mid : List Char)
  | connSmtp (sid : Nat)
  | connSmtpFail
  | smtpSend (sid : Nat) (rcpt : List Char)
  | sleep (delay : Nat)
  | opFail (err : List Char)
deriving DecidableEq

/-- Outcome of `connect_imap` / `connect_smtp` when a connect is needed:
success; a raise before the connection object is stored (constructor fails,
the slot keeps its value); or a raise after it is stored (STARTTLS/login
fails, the slot now holds the fresh half-open session).  The error string is
the classified message the connect helper raises. -/
inductive ConnectOutcome where
  | ok
  | failBefore (e : List Char)
  | failAfter (e : List Char)
deriving DecidableEq

/-- A fetched message as the source consumes it: the `Subject`/`From`/`To`
headers with their `decode_header` decompositions, the `Date` header, and the
body structure. -/
structure RawMail where
  subject : Option HeaderText
  sender : Option HeaderText
  recipient : Option HeaderText
  date : Option (List Char)
  body : EmailMessage
deriving DecidableEq

/-- Outcome of the per-message `fetch` + parse inside `mail_read`'s loop:
a non-`OK` status (skipped via `continue`), a raised exception (logged and
skipped), or a parsed message. -/
inductive FetchOutcome where
  | notOk
  | raises
  | ok (m : RawMail)
deriving DecidableEq

/-- One summary entry of `mail_read`'s result list. -/
structure MailSummary where
  id : List Char
  subject : List Char
  sender : List Char
  date : List Char
  body_summary : List Char
deriving DecidableEq

/-- Building one summary dict in `mail_read` (`msg_id.decode()` plus the
decoded headers and the body summary, with the source's default literals). -/
def mkSummary (mid : List Char) (m : RawMail) : MailSummary :=
  { id := mid
    subject := headerOrDecode m.subject "无主题".data
    sender := headerOrDecode m.sender "未知发件人".data
    date := match m.date with
      | some d => if d = [] then "未知时间".data else d
      | none => "未知时间".data
    body_summary := extract_body_summary m.body }

/-- Result of `mail_read`: the success dict (with its `emails` list and
`count`) or the failure dict (which also carries `emails = []`, `count = 0`). -/
inductive ReadResult where
  | success (emails : List MailSummary) (count : Nat)
  | failure (error : List Char)
deriving DecidableEq

/-- Result of `mail_send`; the failure timestamp is `none` on the validation
path (that dict has no timestamp field) and `some` on the retry-exhausted
path. -/
inductive SendResult where
  | success (message : List Char) (timestamp : Nat)
  | failure (error : List Char) (timestamp : Option Nat)
deriving DecidableEq

/-- Result of `mail_get`. -/
inductive GetResult where
  | success (id subject sender recipient date body : List Char)
  | failure (error : List Char)
deriving DecidableEq

/-- Environment for one attempt of `mail_read`: connect outcome (consulted
only if no session is live), the `select`/`search` statuses, the id list the
search returns, and the per-id fetch outcomes. -/
structure ReadAttemptEnv where
  connect : ConnectOutcome
  selectOk : Bool
  searchOk : Bool
  ids : List (List Char)
  fetch : List Char → FetchOutcome

/-- Environment for one attempt of `mail_send`: connect outcome, the
`sendmail` outcome, and the wall-clock value used for the timestamp. -/
structure SendAttemptEnv where
  connect : ConnectOutcome
  sendmail : Except (List Char) Unit
  now : Nat

/-- Outcome of the single fetch inside `mail_get`: non-`OK` status (the source
raises `EMAIL_NOT_FOUND`), some other raised exception, or a parsed message. -/
inductive GetFetchOutcome where
  | notOk
  | raises (e : List Char)
  | ok (m : RawMail)

/-- Environment for one attempt of `mail_get`: connect outcome, whether the
unchecked `select('INBOX')` call itself raises, and the fetch outcome. -/
structure GetAttemptEnv where
  connect : ConnectOutcome
  selectRaise : Option (List Char)
  fetch : GetFetchOutcome

/-- Outcome of one attempt body: the raised error or the returned result,
together with the state after the attempt and the protocol events emitted. -/
structure AttemptOut (R : Type) where
  out : Except (List Char) R
  st : OpState
  evs : List Ev

/-- Result of a whole operation call: the returned value (`none` models the
Python function falling off the end of the `for` loop and returning `None`),
the final connection state, the event trace, and the number of attempts the
loop executed. -/
structure RunOut (R : Type) where
  result : Option R
  st : OpState
  trace : List Ev
  attempts : Nat

/-- The retry loop shared verbatim by the three operations
(`for attempt in range(retry_count)` with the common except branch): on a
raised attempt the error is logged; if attempts remain the loop sleeps
`retry_delay`, drops the session slot and retries; otherwise it returns the
failure result.  `rem` is the number of iterations left, `i` the current
attempt index. -/
def retryGo {R : Type} (att : Nat → OpState → AttemptOut R)
    (mkFail : Nat → List Char → R) (clear : OpState → OpState) (delay : Nat) :
    Nat → Nat → OpState → RunOut R
  | _, 0, st => ⟨none, st, [], 0⟩
  | i, rem + 1, st =>
      let a := att i st
      match a.out with
      | Except.ok r => ⟨some r, a.st, a.evs, 1⟩
      | Except.error e =>
          if rem = 0 then ⟨some (mkFail i e), a.st, a.evs ++ [Ev.opFail e], 1⟩
          else
            let rest := retryGo att mkFail clear delay (i + 1) rem (clear a.st)
            ⟨rest.result, rest.st,
              a.evs ++ [Ev.opFail e, Ev.sleep delay] ++ rest.trace,
              rest.attempts + 1⟩

/-- Establish a fresh session identifier. -/
def freshSid (st : OpState) : Nat := st.nextSid

/-- Error message raised when `select(folder)` returns a non-`OK` status. -/
def folderNotFound (folder : List Char) : List Char :=
  "FOLDER_NOT_FOUND: 无法访问文件夹 ".data ++ folder

/-- Error message raised when the mail search returns a non-`OK` status. -/
def searchFailMsg : List Char := "邮件搜索失败".data

/-- Error message raised when `mail_get`'s fetch returns a non-`OK` status. -/
def emailNotFound (mid : List Char) : List Char :=
  "EMAIL_NOT_FOUND: 邮件ID ".data ++ mid ++ " 不存在".data

/-- The validation error dict's message in `mail_send`. -/
def invalidEmailMsg : List Char := "INVALID_EMAIL_FORMAT: 收件人邮箱格式无效".data

/-- Python `xs[k:]` (slice from `k` to the end, `k` possibly negative). -/
def pySliceFrom {α : Type} (xs : List α) (k : Int) : List α :=
  if k < 0 then xs.drop (((xs.length : Int) + k).toNat)
  else xs.drop (min xs.length k.toNat)

/-- `message_ids[-limit:] if len(message_ids) >= limit else message_ids`. -/
def pyTakeLast {α : Type} (xs : List α) (limit : Int) : List α :=
  if (xs.length : Int) ≥ limit then pySliceFrom xs (-limit) else xs

/-- The per-id loop of `mail_read`: fetch each id on session `sid`; non-`OK`
statuses and raised exceptions are skipped, parsed messages become summaries. -/
def fetchAll (fetch : List Char → FetchOutcome) (sid : Nat) :
    List (List Char) → List MailSummary × List Ev
  | [] => ([], [])
  | mid :: rest =>
      let r := fetchAll fetch sid rest
      match fetch mid with
      | FetchOutcome.ok m => (mkSummary mid m :: r.1, Ev.imapFetch sid mid :: r.2)
      | _ => (r.1, Ev.imapFetch sid mid :: r.2)

/-- The body of one `mail_read` attempt once a session `sid` is live:
`select`, `search`, early success on an empty id list, otherwise slice the
last `limit` ids, reverse, and fetch each. -/
def readBody (env : ReadAttemptEnv) (folder : List Char) (limit : Int)
    (sid : Nat) (st : OpState) (evs0 : List Ev) : AttemptOut ReadResult :=
  if env.selectOk then
    if env.searchOk then
      if env.ids.isEmpty then
        ⟨Except.ok (ReadResult.success [] 0), st,
          evs0 ++ [Ev.imapSelect sid folder, Ev.imapSearch sid]⟩
      else
        let latest := (pyTakeLast env.ids limit).reverse
        let fr := fetchAll env.fetch sid latest
        ⟨Except.ok (ReadResult.success fr.1 fr.1.length), st,
          evs0 ++ [Ev.imapSelect sid folder, Ev.imapSearch sid] ++ fr.2⟩
    else
      ⟨Except.error searchFailMsg, st,
        evs0 ++ [Ev.imapSelect sid folder, Ev.imapSearch sid]⟩
  else
    ⟨Except.error (folderNotFound folder), st, evs0 ++ [Ev.imapSelect sid folder]⟩

/-- One attempt of `mail_read`: lazily connect if no IMAP session is live,
then run the attempt body. -/
def attemptRead (w : Nat → ReadAttemptEnv) (folder : List Char) (limit : Int)
    (i : Nat) (st : OpState) : AttemptOut ReadResult :=
  let env := w i
  match st.imap with
  | some sid => readBody env folder limit sid st []
  | none =>
      match env.connect with
      | ConnectOutcome.failBefore e => ⟨Except.error e, st, [Ev.connImapFail]⟩
      | ConnectOutcome.failAfter e =>
          ⟨Except.error e,
            { st with imap := some st.nextSid, nextSid := st.nextSid + 1 },
            [Ev.connImapFail]⟩
      | ConnectOutcome.ok =>
          readBody env folder limit st.nextSid
            { st with imap := some st.nextSid, nextSid := st.nextSid + 1 }
            [Ev.connImap st.nextSid]

/-- `MCPMailTool.mail_read`. -/
def mail_read (w : Nat → ReadAttemptEnv) (folder : List Char) (limit : Int)
    (retry_count retry_delay : Nat) (st : OpState) : RunOut ReadResult :=
  retryGo (attemptRead w folder limit) (fun _ e => ReadResult.failure e)
    (fun s => { s with imap := none }) retry_delay 0 retry_count st

/-- The character `c` occurs in the string. -/
def hasChar (c : Char) : List Char → Bool
  | [] => false
  | d :: r => d = c || hasChar c r

/-- Python `to.split('@')[1]` for a string containing at least one `'@'`: the
characters strictly between the first `'@'` and the next `'@'` (or the end). -/
def domainPart (rcpt : List Char) : List Char :=
  ((rcpt.dropWhile (fun d => d ≠ '@')).drop 1).takeWhile (fun d => d ≠ '@')

/-- Everything after the first `'@'` of the string. -/
def afterFirstAt (rcpt : List Char) : List Char :=
  (rcpt.dropWhile (fun d => d ≠ '@')).drop 1

/-- The recipient validation of `mail_send`:
`'@' not in to or '.' not in to.split('@')[1]`. -/
def invalidTo (rcpt : List Char) : Bool :=
  !hasChar '@' rcpt || !hasChar '.' (domainPart rcpt)

/-- The body of one `mail_send` attempt once a session `sid` is live: build
the MIME message (pure) and call `sendmail`. -/
def sendBody (env : SendAttemptEnv) (rcpt : List Char) (sid : Nat) (st : OpState)
    (evs0 : List Ev) : AttemptOut SendResult :=
  match env.sendmail with
  | Except.error e => ⟨Except.error e, st, evs0 ++ [Ev.smtpSend sid rcpt]⟩
  | Except.ok _ =>
      ⟨Except.ok (SendResult.success ("Email sent to ".data ++ rcpt) env.now), st,
        evs0 ++ [Ev.smtpSend sid rcpt]⟩

/-- One attempt of `mail_send`: lazily connect if no SMTP session is live,
then run the attempt body. -/
def attemptSend (w : Nat → SendAttemptEnv) (rcpt : List Char) (i : Nat)
    (st : OpState) : AttemptOut SendResult :=
  let env := w i
  match st.smtp with
  | some sid => sendBody env rcpt sid st []
  | none =>
      match env.connect with
      | ConnectOutcome.failBefore e => ⟨Except.error e, st, [Ev.connSmtpFail]⟩
      | ConnectOutcome.failAfter e =>
          ⟨Except.error e,
            { st with smtp := some st.nextSid, nextSid := st.nextSid + 1 },
            [Ev.connSmtpFail]⟩
      | ConnectOutcome.ok =>
          sendBody env rcpt st.nextSid
            { st with smtp := some st.nextSid, nextSid := st.nextSid + 1 }
            [Ev.connSmtp st.nextSid]

/-- `MCPMailTool.mail_send` (the `subject`/`body` arguments only feed the pure
MIME construction and do not influence control flow). -/
def mail_send (w : Nat → SendAttemptEnv) (rcpt : List Char)
    (retry_count retry_delay : Nat) (st : OpState) : RunOut SendResult :=
  if invalidTo rcpt then ⟨some (SendResult.failure invalidEmailMsg none), st, [], 0⟩
  else
    retryGo (attemptSend w rcpt) (fun i e => SendResult.failure e (some (w i).now))
      (fun s => { s with smtp := none }) retry_delay 0 retry_count st

/-- The body of one `mail_get` attempt once a session `sid` is live: the
status-unchecked `select('INBOX')`, then the fetch, then header decoding and
full-body extraction. -/
def getBody (env : GetAttemptEnv) (mid : List Char) (sid : Nat) (st : OpState)
    (evs0 : List Ev) : AttemptOut GetResult :=
  match env.selectRaise with
  | some e => ⟨Except.error e, st, evs0 ++ [Ev.imapSelect sid "INBOX".data]⟩
  | none =>
      match env.fetch with
      | GetFetchOutcome.notOk =>
          ⟨Except.error (emailNotFound mid), st,
            evs0 ++ [Ev.imapSelect sid "INBOX".data, Ev.imapFetch sid mid]⟩
      | GetFetchOutcome.raises e =>
          ⟨Except.error e, st,
            evs0 ++ [Ev.imapSelect sid "INBOX".data, Ev.imapFetch sid mid]⟩
      | GetFetchOutcome.ok m =>
          ⟨Except.ok (GetResult.success mid
              (headerOrDecode m.subject "无主题".data)
              (headerOrDecode m.sender "未知发件人".data)
              (headerOrDecode m.recipient "未知收件人".data)
              (match m.date with
                | some d => if d = [] then "未知时间".data else d
                | none => "未知时间".data)
              (extract_full_body m.body)), st,
            evs0 ++ [Ev.imapSelect sid "INBOX".data, Ev.imapFetch sid mid]⟩

/-- One attempt of `mail_get`. -/
def attemptGet (w : Nat → GetAttemptEnv) (mid : List Char) (i : Nat)
    (st : OpState) : AttemptOut GetResult :=
  let env := w i
  match st.imap with
  | some sid => getBody env mid sid st []
  | none =>
      match env.connect with
      | ConnectOutcome.failBefore e => ⟨Except.error e, st, [Ev.connImapFail]⟩
      | ConnectOutcome.failAfter e =>
          ⟨Except.error e,
            { st with imap := some st.nextSid, nextSid := st.nextSid + 1 },
            [Ev.connImapFail]⟩
      | ConnectOutcome.ok =>
          getBody env mid st.nextSid
            { st with imap := some st.nextSid, nextSid := st.nextSid + 1 }
            [Ev.connImap st.nextSid]

/-- `MCPMailTool.mail_get`. -/
def mail_get (w : Nat → GetAttemptEnv) (mid : List Char)
    (retry_count retry_delay : Nat) (st : OpState) : RunOut GetResult :=
  retryGo (attemptGet w mid) (fun _ e => GetResult.failure e)
    (fun s => { s with imap := none }) retry_delay 0 retry_count st

/-- Environment for `close_connections`: whether each close step succeeds
(`false` = the call raises). -/
structure CloseEnv where
  imapCloseOk : Bool
  imapLogoutOk : Bool
  smtpQuitOk : Bool
deriving DecidableEq

/-- The SMTP half of `close_connections`. -/
def closeSmtpStep (env : CloseEnv) (st : OpState) : OpState :=
  match st.smtp with
  | some _ => if env.smtpQuitOk then { st with smtp := none } else st
  | none => st

/-- `MCPMailTool.close_connections`: best-effort close inside one try/except;
a raising step jumps to the except branch (which only logs), leaving every
assignment after the raise unexecuted.  The function always returns a state
and never raises. -/
def close_connections (env : CloseEnv) (st : OpState) : OpState :=
  match st.imap with
  | some _ =>
      if env.imapCloseOk then
        if env.imapLogoutOk then closeSmtpStep env { st with imap := none }
        else st
      else st
  | none => closeSmtpStep env st

/-- Is this event a retry sleep? -/
def isSleepEv : Ev → Bool
  | Ev.sleep _ => true
  | _ => false

/-- The sleep events of a trace. -/
def sleepFilter (tr : List Ev) : List Ev := tr.filter isSleepEv

/-- Is this event a protocol call performed on session `s` (as opposed to the
establishment of `s`)? -/
def isSessCallOn (s : Nat) : Ev → Bool
  | Ev.imapSelect sid _ => sid = s
  | Ev.imapSearch sid => sid = s
  | Ev.imapFetch sid _ => sid = s
  | Ev.smtpSend sid _ => sid = s
  | _ => false

/-- Is this event the establishment of session `s`? -/
def isConnOf (s : Nat) : Ev → Bool
  | Ev.connImap sid => sid = s
  | Ev.connSmtp sid => sid = s
  | _ => false

/-- Is this event the failure log of an attempt? -/
def isOpFailEv : Ev → Bool
  | Ev.opFail _ => true
  | _ => false

/-- The trace performs a protocol call on session `s` before (any)
establishment of `s`: the session was taken over from an earlier run rather
than re-established. -/
def callsBeforeConn (s : Nat) : List Ev → Bool
  | [] => false
  | e :: tr =>
      if isSessCallOn s e then true
      else if isConnOf s e then false
      else callsBeforeConn s tr

/-- Some protocol call on session `s` is later followed by an attempt-failure
log: an operation attempt against `s` has failed. -/
def afterCallFails (s : Nat) : List Ev → Bool
  | [] => false
  | e :: tr => (isSessCallOn s e && tr.any isOpFailEv) || afterCallFails s tr

/-- The error one `mail_read` attempt raises when entered with no live IMAP
session, `none` if the attempt returns instead of raising. -/
def readAttemptErr (env : ReadAttemptEnv) (folder : List Char) : Option (List Char) :=
  match env.connect with
  | ConnectOutcome.failBefore e => some e
  | ConnectOutcome.failAfter e => some e
  | ConnectOutcome.ok =>
      if env.selectOk then
        if env.searchOk then none else some searchFailMsg
      else some (folderNotFound folder)

/-- The error one `mail_send` attempt raises when entered with no live SMTP
session, `none` if the attempt returns. -/
def sendAttemptErr (env : SendAttemptEnv) : Option (List Char) :=
  match env.connect with
  | ConnectOutcome.failBefore e => some e
  | ConnectOutcome.failAfter e => some e
  | ConnectOutcome.ok =>
      match env.sendmail with
      | Except.error e => some e
      | Except.ok _ => none

/-- The error one `mail_get` attempt raises when entered with no live IMAP
session, `none` if the attempt returns. -/
def getAttemptErr (env : GetAttemptEnv) (mid : List Char) : Option (List Char) :=
  match env.connect with
  | ConnectOutcome.failBefore e => some e
  | ConnectOutcome.failAfter e => some e
  | ConnectOutcome.ok =>
      match env.selectRaise with
      | some e => some e
      | none =>
          match env.fetch with
          | GetFetchOutcome.notOk => some (emailNotFound mid)
          | GetFetchOutcome.raises e => some e
          | GetFetchOutcome.ok _ => none

/-- The summaries `mail_read` produces from an id list: ids whose fetch is
non-`OK` or whose parse raises are skipped, the rest become summaries. -/
def readSummaries (fetch : List Char → FetchOutcome) :
    List (List Char) → List MailSummary
  | [] => []
  | mid :: rest =>
      match fetch mid with
      | FetchOutcome.ok m => mkSummary mid m :: readSummaries fetch rest
      | _ => readSummaries fetch rest

theorem retryGo_zero {R : Type} (att : Nat → OpState → AttemptOut R)
    (mkFail : Nat → List Char → R) (clear : OpState → OpState) (delay i : Nat)
    (st : OpState) : retryGo att mkFail clear delay i 0 st = ⟨none, st, [], 0⟩ := rfl

theorem retryGo_succ_ok {R : Type} {att : Nat → OpState → AttemptOut R}
    {mkFail : Nat → List Char → R} {clear : OpState → OpState} {delay i rem : Nat}
    {st : OpState} {r : R} (h : (att i st).out = Except.ok r) :
    retryGo att mkFail clear delay i (rem + 1) st
      = ⟨some r, (att i st).st, (att i st).evs, 1⟩ := by
  simp only [retryGo]
  rw [h]

theorem retryGo_one_err {R : Type} {att : Nat → OpState → AttemptOut R}
    {mkFail : Nat → List Char → R} {clear : OpState → OpState} {delay i : Nat}
    {st : OpState} {e : List Char} (h : (att i st).out = Except.error e) :
    retryGo att mkFail clear delay i 1 st
      = ⟨some (mkFail i e), (att i st).st, (att i st).evs ++ [Ev.opFail e], 1⟩ := by
  simp only [retryGo]
  rw [h]
  simp

theorem retryGo_cont_err {R : Type} {att : Nat → OpState → AttemptOut R}
    {mkFail : Nat → List Char → R} {clear : OpState → OpState} {delay i rem : Nat}
    {st : OpState} {e : List Char} (h : (att i st).out = Except.error e)
    (hrem : rem ≠ 0) :
    retryGo att mkFail clear delay i (rem + 1) st
      = ⟨(retryGo att mkFail clear delay (i + 1) rem (clear (att i st).st)).result,
         (retryGo att mkFail clear delay (i + 1) rem (clear (att i st).st)).st,
         (att i st).evs ++ [Ev.opFail e, Ev.sleep delay]
           ++ (retryGo att mkFail clear delay (i + 1) rem (clear (att i st).st)).trace,
         (retryGo att mkFail clear delay (i + 1) rem (clear (att i st).st)).attempts + 1⟩ := by
  simp only [retryGo]
  rw [h]
  simp [hrem]

/-- The retry loop returns a value whenever at least one iteration runs. -/
theorem retryGo_isSome {R : Type} (att : Nat → OpState → AttemptOut R)
    (mkFail : Nat → List Char → R) (clear : OpState → OpState) (delay : Nat) :
    ∀ (rem i : Nat) (st : OpState), 1 ≤ rem →
      (retryGo att mkFail clear delay i rem st).result.isSome := by
  intro rem
  induction rem with
  | zero => intro i st h; omega
  | succ n ih =>
      intro i st _
      cases h : (att i st).out with
      | ok r => rw [retryGo_succ_ok h]; rfl
      | error e =>
          by_cases hn : n = 0
          · subst hn; rw [retryGo_one_err h]; rfl
          · rw [retryGo_cont_err h hn]
            exact ih (i + 1) (clear (att i st).st) (Nat.one_le_iff_ne_zero.mpr hn)

/-- If every attempt raises (with error determined by the attempt index on
states satisfying the invariant `P`), the loop performs exactly `rem`
attempts, sleeps `rem - 1` times, and returns the failure built from the last
attempt's error; the final state is the state left by that last attempt. -/
theorem retryGo_all_fail {R : Type} (att : Nat → OpState → AttemptOut R)
    (mkFail : Nat → List Char → R) (clear : OpState → OpState) (delay : Nat)
    (P : OpState → Prop) (e : Nat → List Char)
    (hclear : ∀ s, P (clear s))
    (hfail : ∀ j s, P s → (att j s).out = Except.error (e j))
    (hnosleep : ∀ j s, P s → sleepFilter (att j s).evs = []) :
    ∀ (rem i : Nat) (st : OpState), 1 ≤ rem → P st →
      (retryGo att mkFail clear delay i rem st).result
          = some (mkFail (i + rem - 1) (e (i + rem - 1))) ∧
      (retryGo att mkFail clear delay i rem st).attempts = rem ∧
      sleepFilter (retryGo att mkFail clear delay i rem st).trace
          = List.replicate (rem - 1) (Ev.sleep delay) ∧
      ∃ sfin, P sfin ∧
        (retryGo att mkFail clear delay i rem st).st = (att (i + rem - 1) sfin).st := by
  intro rem
  induction rem with
  | zero => intro i st h; omega
  | succ n ih =>
      intro i st _ hP
      by_cases hn : n = 0
      · subst hn
        rw [retryGo_one_err (hfail i st hP)]
        refine ⟨rfl, rfl, ?_, st, hP, rfl⟩
        dsimp only
        simp only [sleepFilter, List.filter_append]
        rw [show List.filter isSleepEv (att i st).evs = [] from hnosleep i st hP]
        rfl
      · rw [retryGo_cont_err (hfail i st hP) hn]
        obtain ⟨h1, h2, h3, sfin, hPf, h4⟩ :=
          ih (i + 1) (clear (att i st).st) (Nat.one_le_iff_ne_zero.mpr hn) (hclear _)
        have hidx : (i + 1) + n - 1 = i + (n + 1) - 1 := by omega
        rw [hidx] at h1 h4
        refine ⟨h1, ?_, ?_, sfin, hPf, h4⟩
        · dsimp only
          rw [h2]
        · dsimp only
          simp only [sleepFilter, List.filter_append] at h3 ⊢
          rw [h3]
          rw [show List.filter isSleepEv (att i st).evs = [] from hnosleep i st hP]
          have h6 : n + 1 - 1 = (n - 1) + 1 := by omega
          rw [h6, List.replicate_succ]
          rfl

/-- If the first `k` attempts raise and attempt `k` returns (with a result
satisfying `Q`), the loop performs exactly `k + 1` attempts, sleeps `k` times,
and returns that result: no attempt runs after the success. -/
theorem retryGo_fail_then_ok {R : Type} (att : Nat → OpState → AttemptOut R)
    (mkFail : Nat → List Char → R) (clear : OpState → OpState) (delay : Nat)
    (P : OpState → Prop) (e : Nat → List Char) (Q : R → Prop)
    (hclear : ∀ s, P (clear s))
    (hnosleep : ∀ j s, P s → sleepFilter (att j s).evs = []) :
    ∀ (k i : Nat) (st : OpState), P st →
      (∀ j s, j < k → P s → (att (i + j) s).out = Except.error (e (i + j))) →
      (∀ s, P s → ∃ rv, (att (i + k) s).out = Except.ok rv ∧ Q rv) →
      (∃ rv, (retryGo att mkFail clear delay i (k + 1) st).result = some rv ∧ Q rv) ∧
      (retryGo att mkFail clear delay i (k + 1) st).attempts = k + 1 ∧
      sleepFilter (retryGo att mkFail clear delay i (k + 1) st).trace
          = List.replicate k (Ev.sleep delay) := by
  intro k
  induction k with
  | zero =>
      intro i st hP _ hok
      obtain ⟨rv, hrv, hQ⟩ := hok st hP
      rw [Nat.add_zero] at hrv
      rw [retryGo_succ_ok hrv]
      exact ⟨⟨rv, rfl, hQ⟩, rfl, hnosleep i st hP⟩
  | succ m ih =>
      intro i st hP hfail hok
      have h0 : (att i st).out = Except.error (e i) := by
        have := hfail 0 st (by omega) hP
        simpa using this
      rw [retryGo_cont_err h0 (by omega : m + 1 ≠ 0)]
      have hfail' : ∀ j s, j < m → P s →
          (att (i + 1 + j) s).out = Except.error (e (i + 1 + j)) := by
        intro j s hj hPs
        have := hfail (j + 1) s (by omega) hPs
        have hx : i + (j + 1) = i + 1 + j := by omega
        rw [hx] at this
        exact this
      have hok' : ∀ s, P s → ∃ rv, (att (i + 1 + m) s).out = Except.ok rv ∧ Q rv := by
        intro s hPs
        have := hok s hPs
        have hx : i + (m + 1) = i + 1 + m := by omega
        rw [hx] at this
        exact this
      obtain ⟨⟨rv, h1, hQ⟩, h2, h3⟩ := ih (i + 1) (clear (att i st).st) (hclear _) hfail' hok'
      refine ⟨⟨rv, h1, hQ⟩, ?_, ?_⟩
      · dsimp only
        rw [h2]
      · dsimp only
        simp only [sleepFilter, List.filter_append] at h3 ⊢
        rw [h3]
        rw [show List.filter isSleepEv (att i st).evs = [] from hnosleep i st hP]
        rw [List.replicate_succ]
        rfl

theorem callsBeforeConn_append (s : Nat) (xs ys : List Ev) :
    callsBeforeConn s (xs ++ ys)
      = (callsBeforeConn s xs ||
         (xs.all (fun e => !(isSessCallOn s e || isConnOf s e)) &&
           callsBeforeConn s ys)) := by
  induction xs with
  | nil => simp [callsBeforeConn]
  | cons e xs ih =>
      by_cases h1 : isSessCallOn s e
      · simp [callsBeforeConn, h1]
      · by_cases h2 : isConnOf s e
        · simp [callsBeforeConn, h1, h2]
        · simp [callsBeforeConn, h1, h2, ih, Bool.and_assoc]

theorem callsBeforeConn_of_all_not (s : Nat) :
    ∀ tr : List Ev, tr.all (fun e => !(isSessCallOn s e || isConnOf s e)) = true →
      callsBeforeConn s tr = false := by
  intro tr
  induction tr with
  | nil => intro _; rfl
  | cons e tr ih =>
      intro h
      simp only [List.all_cons, Bool.and_eq_true] at h
      have h1 : isSessCallOn s e = false := by
        rcases h with ⟨he, _⟩
        simp only [Bool.not_eq_true', Bool.or_eq_false_iff] at he
        exact he.1
      have h2 : isConnOf s e = false := by
        rcases h with ⟨he, _⟩
        simp only [Bool.not_eq_true', Bool.or_eq_false_iff] at he
        exact he.2
      simp [callsBeforeConn, h1, h2, ih h.2]

/-- The retry loop never performs a protocol call on a session established
outside of its own trace, provided each attempt has that property on states
satisfying the invariant. -/
theorem retryGo_noStaleCalls {R : Type} (att : Nat → OpState → AttemptOut R)
    (mkFail : Nat → List Char → R) (clear : OpState → OpState) (delay : Nat)
    (P : OpState → Prop)
    (hclear : ∀ s, P (clear s))
    (hatt : ∀ j s, P s → ∀ sess, callsBeforeConn sess (att j s).evs = false) :
    ∀ (rem i : Nat) (st : OpState), P st → ∀ sess,
      callsBeforeConn sess (retryGo att mkFail clear delay i rem st).trace = false := by
  intro rem
  induction rem with
  | zero => intro i st _ sess; rfl
  | succ n ih =>
      intro i st hP sess
      cases h : (att i st).out with
      | ok r =>
          rw [retryGo_succ_ok h]
          exact hatt i st hP sess
      | error e =>
          by_cases hn : n = 0
          · subst hn
            rw [retryGo_one_err h]
            dsimp only
            rw [callsBeforeConn_append]
            simp [hatt i st hP sess, callsBeforeConn, isSessCallOn, isConnOf]
          · rw [retryGo_cont_err h hn]
            dsimp only
            rw [List.append_assoc, callsBeforeConn_append]
            have hmid : callsBeforeConn sess
                ([Ev.opFail e, Ev.sleep delay]
                  ++ (retryGo att mkFail clear delay (i + 1) n (clear (att i st).st)).trace)
                = callsBeforeConn sess
                  (retryGo att mkFail clear delay (i + 1) n (clear (att i st).st)).trace := by
              simp [callsBeforeConn, isSessCallOn, isConnOf]
            rw [hmid, ih (i + 1) (clear (att i st).st) (hclear _) sess]
            simp [hatt i st hP sess]

theorem fetchAll_fst (fetch : List Char → FetchOutcome) (sid : Nat) :
    ∀ l, (fetchAll fetch sid l).1 = readSummaries fetch l := by
  intro l
  induction l with
  | nil => rfl
  | cons mid rest ih => cases h : fetch mid <;> simp [fetchAll, readSummaries, h, ih]

theorem fetchAll_snd (fetch : List Char → FetchOutcome) (sid : Nat) :
    ∀ l, (fetchAll fetch sid l).2 = l.map (Ev.imapFetch sid) := by
  intro l
  induction l with
  | nil => rfl
  | cons mid rest ih => cases h : fetch mid <;> simp [fetchAll, h, ih]

theorem sleepFilter_map_fetch (sid : Nat) (l : List (List Char)) :
    sleepFilter (l.map (Ev.imapFetch sid)) = [] := by
  induction l with
  | nil => rfl
  | cons mid rest ih => simp [sleepFilter, isSleepEv] at ih ⊢

theorem attemptRead_err {w : Nat → ReadAttemptEnv} {folder : List Char}
    {limit : Int} {j : Nat} {st : OpState} {er : List Char}
    (h : st.imap = none) (he : readAttemptErr (w j) folder = some er) :
    (attemptRead w folder limit j st).out = Except.error er := by
  unfold readAttemptErr at he
  cases hc : (w j).connect with
  | failBefore e =>
      rw [hc] at he
      simp only [Option.some.injEq] at he
      simp [attemptRead, h, hc, he]
  | failAfter e =>
      rw [hc] at he
      simp only [Option.some.injEq] at he
      simp [attemptRead, h, hc, he]
  | ok =>
      rw [hc] at he
      by_cases hs : (w j).selectOk
      · by_cases hq : (w j).searchOk
        · simp [hs, hq] at he
        · simp [hs, hq] at he
          simp [attemptRead, h, hc, readBody, hs, hq, he]
      · simp [hs] at he
        simp [attemptRead, h, hc, readBody, hs, he]

theorem attemptRead_ok {w : Nat → ReadAttemptEnv} {folder : List Char}
    {limit : Int} {j : Nat} {st : OpState}
    (h : st.imap = none) (he : readAttemptErr (w j) folder = none) :
    ∃ es n, (attemptRead w folder limit j st).out
        = Except.ok (ReadResult.success es n) := by
  unfold readAttemptErr at he
  cases hc : (w j).connect with
  | failBefore e => rw [hc] at he; simp at he
  | failAfter e => rw [hc] at he; simp at he
  | ok =>
      rw [hc] at he
      by_cases hs : (w j).selectOk
      · by_cases hq : (w j).searchOk
        · by_cases hi : (w j).ids.isEmpty
          · exact ⟨[], 0, by simp [attemptRead, h, hc, readBody, hs, hq, hi]⟩
          · refine ⟨(fetchAll (w j).fetch st.nextSid ((pyTakeLast (w j).ids limit).reverse)).1,
              (fetchAll (w j).fetch st.nextSid ((pyTakeLast (w j).ids limit).reverse)).1.length, ?_⟩
            simp [attemptRead, h, hc, readBody, hs, hq, hi]
        · simp [hs, hq] at he
      · simp [hs] at he

theorem readBody_nosleep (env : ReadAttemptEnv) (folder : List Char)
    (limit : Int) (sid : Nat) (st : OpState) (evs0 : List Ev)
    (h0 : sleepFilter evs0 = []) :
    sleepFilter (readBody env folder limit sid st evs0).evs = [] := by
  unfold readBody
  by_cases hs : env.selectOk
  · rw [if_pos hs]
    by_cases hq : env.searchOk
    · rw [if_pos hq]
      by_cases hi : env.ids.isEmpty
      · rw [if_pos hi]
        dsimp only
        simp only [sleepFilter, List.filter_append] at h0 ⊢
        rw [h0]
        rfl
      · rw [if_neg hi]
        dsimp only
        simp only [sleepFilter, List.filter_append] at h0 ⊢
        rw [h0, fetchAll_snd]
        have hm := sleepFilter_map_fetch sid ((pyTakeLast env.ids limit).reverse)
        simp only [sleepFilter] at hm
        rw [hm]
        rfl
    · rw [if_neg hq]
      dsimp only
      simp only [sleepFilter, List.filter_append] at h0 ⊢
      rw [h0]
      rfl
  · rw [if_neg hs]
    dsimp only
    simp only [sleepFilter, List.filter_append] at h0 ⊢
    rw [h0]
    rfl

theorem attemptRead_nosleep (w : Nat → ReadAttemptEnv) (folder : List Char)
    (limit : Int) (j : Nat) (st : OpState) :
    sleepFilter (attemptRead w folder limit j st).evs = [] := by
  cases hst : st.imap with
  | some sid =>
      simp only [attemptRead, hst]
      exact readBody_nosleep _ _ _ _ _ _ rfl
  | none =>
      cases hc : (w j).connect with
      | failBefore e => simp [attemptRead, hst, hc, sleepFilter, isSleepEv]
      | failAfter e => simp [attemptRead, hst, hc, sleepFilter, isSleepEv]
      | ok =>
          simp only [attemptRead, hst, hc]
          exact readBody_nosleep _ _ _ _ _ _ rfl

theorem all_not_relevant_map_fetch (sess sid : Nat) (hne : sess ≠ sid)
    (l : List (List Char)) :
    (l.map (Ev.imapFetch sid)).all
      (fun e => !(isSessCallOn sess e || isConnOf sess e)) = true := by
  induction l with
  | nil => rfl
  | cons mid rest ih =>
      simp only [List.map_cons, List.all_cons, Bool.and_eq_true]
      refine ⟨?_, ih⟩
      simp [isSessCallOn, isConnOf, Ne.symm hne]

theorem readBody_cBC_fresh (env : ReadAttemptEnv) (folder : List Char)
    (limit : Int) (sid : Nat) (st : OpState) (sess : Nat) :
    callsBeforeConn sess (readBody env folder limit sid st [Ev.connImap sid]).evs
      = false := by
  by_cases hsid : sess = sid
  · subst hsid
    unfold readBody
    by_cases hs : env.selectOk
    · rw [if_pos hs]
      by_cases hq : env.searchOk
      · rw [if_pos hq]
        by_cases hi : env.ids.isEmpty
        · rw [if_pos hi]
          simp [callsBeforeConn, isSessCallOn, isConnOf]
        · rw [if_neg hi]
          simp [callsBeforeConn, isSessCallOn, isConnOf]
      · rw [if_neg hq]
        simp [callsBeforeConn, isSessCallOn, isConnOf]
    · rw [if_neg hs]
      simp [callsBeforeConn, isSessCallOn, isConnOf]
  · unfold readBody
    have hce : callsBeforeConn sess [Ev.connImap sid] = false := by
      simp [callsBeforeConn, isSessCallOn, isConnOf, Ne.symm hsid]
    have hsel : isSessCallOn sess (Ev.imapSelect sid folder) = false := by
      simp [isSessCallOn, Ne.symm hsid]
    have hsea : isSessCallOn sess (Ev.imapSearch sid) = false := by
      simp [isSessCallOn, Ne.symm hsid]
    have hcon1 : isConnOf sess (Ev.imapSelect sid folder) = false := by
      simp [isConnOf]
    have hcon2 : isConnOf sess (Ev.imapSearch sid) = false := by
      simp [isConnOf]
    by_cases hs : env.selectOk
    · rw [if_pos hs]
      by_cases hq : env.searchOk
      · rw [if_pos hq]
        by_cases hi : env.ids.isEmpty
        · rw [if_pos hi]
          dsimp only
          simp [callsBeforeConn, hsel, hsea, hcon1, hcon2, isSessCallOn, isConnOf,
            Ne.symm hsid]
        · rw [if_neg hi]
          dsimp only
          rw [List.append_assoc, callsBeforeConn_append]
          rw [hce]
          rw [callsBeforeConn_append]
          have hfe : callsBeforeConn sess
              (fetchAll env.fetch sid (pyTakeLast env.ids limit).reverse).2 = false := by
            rw [fetchAll_snd]
            exact callsBeforeConn_of_all_not sess _
              (all_not_relevant_map_fetch sess sid hsid _)
          rw [hfe]
          simp [callsBeforeConn, hsel, hsea, hcon1, hcon2]
      · rw [if_neg hq]
        dsimp only
        rw [callsBeforeConn_append, hce]
        simp [callsBeforeConn, hsel, hsea, hcon1, hcon2]
    · rw [if_neg hs]
      dsimp only
      rw [callsBeforeConn_append, hce]
      simp [callsBeforeConn, hsel, hcon1]

theorem attemptRead_cBC {w : Nat → ReadAttemptEnv} {folder : List Char}
    {limit : Int} {j : Nat} {st : OpState}
    (h : st.imap = none) (sess : Nat) :
    callsBeforeConn sess (attemptRead w folder limit j st).evs = false := by
  cases hc : (w j).connect with
  | failBefore e => simp [attemptRead, h, hc, callsBeforeConn, isSessCallOn, isConnOf]
  | failAfter e => simp [attemptRead, h, hc, callsBeforeConn, isSessCallOn, isConnOf]
  | ok =>
      simp only [attemptRead, h, hc]
      exact readBody_cBC_fresh _ _ _ _ _ _

theorem attemptRead_st_conn {w : Nat → ReadAttemptEnv} {folder : List Char}
    {limit : Int} {j : Nat} {st : OpState}
    (h : st.imap = none) (hc : (w j).connect = ConnectOutcome.ok) :
    (attemptRead w folder limit j st).st.imap = some st.nextSid := by
  simp only [attemptRead, h, hc]
  unfold readBody
  by_cases hs : (w j).selectOk
  · rw [if_pos hs]
    by_cases hq : (w j).searchOk
    · rw [if_pos hq]
      by_cases hi : (w j).ids.isEmpty
      · rw [if_pos hi]
      · rw [if_neg hi]
    · rw [if_neg hq]
  · rw [if_neg hs]

theorem attemptSend_err {w : Nat → SendAttemptEnv} {rcpt : List Char}
    {j : Nat} {st : OpState} {er : List Char}
    (h : st.smtp = none) (he : sendAttemptErr (w j) = some er) :
    (attemptSend w rcpt j st).out = Except.error er := by
  unfold sendAttemptErr at he
  cases hc : (w j).connect with
  | failBefore e =>
      rw [hc] at he
      simp only [Option.some.injEq] at he
      simp [attemptSend, h, hc, he]
  | failAfter e =>
      rw [hc] at he
      simp only [Option.some.injEq] at he
      simp [attemptSend, h, hc, he]
  | ok =>
      rw [hc] at he
      cases hm : (w j).sendmail with
      | error e =>
          rw [hm] at he
          simp only [Option.some.injEq] at he
          simp [attemptSend, h, hc, sendBody, hm, he]
      | ok u => rw [hm] at he; simp at he

theorem attemptSend_ok {w : Nat → SendAttemptEnv} {rcpt : List Char}
    {j : Nat} {st : OpState}
    (h : st.smtp = none) (he : sendAttemptErr (w j) = none) :
    ∃ m t, (attemptSend w rcpt j st).out = Except.ok (SendResult.success m t) := by
  unfold sendAttemptErr at he
  cases hc : (w j).connect with
  | failBefore e => rw [hc] at he; simp at he
  | failAfter e => rw [hc] at he; simp at he
  | ok =>
      cases hm : (w j).sendmail with
      | error e => rw [hc, hm] at he; simp at he
      | ok u =>
          exact ⟨"Email sent to ".data ++ rcpt, (w j).now,
            by simp [attemptSend, h, hc, sendBody, hm]⟩

theorem attemptSend_nosleep (w : Nat → SendAttemptEnv) (rcpt : List Char)
    (j : Nat) (st : OpState) :
    sleepFilter (attemptSend w rcpt j st).evs = [] := by
  cases hst : st.smtp with
  | some sid =>
      cases hm : (w j).sendmail <;>
        simp [attemptSend, hst, sendBody, hm, sleepFilter, isSleepEv]
  | none =>
      cases hc : (w j).connect with
      | failBefore e => simp [attemptSend, hst, hc, sleepFilter, isSleepEv]
      | failAfter e => simp [attemptSend, hst, hc, sleepFilter, isSleepEv]
      | ok =>
          cases hm : (w j).sendmail <;>
            simp [attemptSend, hst, hc, sendBody, hm, sleepFilter, isSleepEv]

theorem attemptSend_cBC {w : Nat → SendAttemptEnv} {rcpt : List Char}
    {j : Nat} {st : OpState}
    (h : st.smtp = none) (sess : Nat) :
    callsBeforeConn sess (attemptSend w rcpt j st).evs = false := by
  cases hc : (w j).connect with
  | failBefore e => simp [attemptSend, h, hc, callsBeforeConn, isSessCallOn, isConnOf]
  | failAfter e => simp [attemptSend, h, hc, callsBeforeConn, isSessCallOn, isConnOf]
  | ok =>
      by_cases hsid : sess = st.nextSid
      · subst hsid
        cases hm : (w j).sendmail <;>
          simp [attemptSend, h, hc, sendBody, hm, callsBeforeConn, isSessCallOn, isConnOf]
      · cases hm : (w j).sendmail <;>
          simp [attemptSend, h, hc, sendBody, hm, callsBeforeConn, isSessCallOn,
            isConnOf, Ne.symm hsid]

theorem attemptGet_err {w : Nat → GetAttemptEnv} {mid : List Char}
    {j : Nat} {st : OpState} {er : List Char}
    (h : st.imap = none) (he : getAttemptErr (w j) mid = some er) :
    (attemptGet w mid j st).out = Except.error er := by
  unfold getAttemptErr at he
  cases hc : (w j).connect with
  | failBefore e =>
      rw [hc] at he
      simp only [Option.some.injEq] at he
      simp [attemptGet, h, hc, he]
  | failAfter e =>
      rw [hc] at he
      simp only [Option.some.injEq] at he
      simp [attemptGet, h, hc, he]
  | ok =>
      rw [hc] at he
      cases hr : (w j).selectRaise with
      | some e =>
          rw [hr] at he
          simp only [Option.some.injEq] at he
          simp [attemptGet, h, hc, getBody, hr, he]
      | none =>
          rw [hr] at he
          cases hf : (w j).fetch with
          | notOk =>
              rw [hf] at he
              simp only [Option.some.injEq] at he
              simp [attemptGet, h, hc, getBody, hr, hf, he]
          | raises e =>
              rw [hf] at he
              simp only [Option.some.injEq] at he
              simp [attemptGet, h, hc, getBody, hr, hf, he]
          | ok m => rw [hf] at he; simp at he

theorem attemptGet_ok {w : Nat → GetAttemptEnv} {mid : List Char}
    {j : Nat} {st : OpState}
    (h : st.imap = none) (he : getAttemptErr (w j) mid = none) :
    ∃ s sn r d b, (attemptGet w mid j st).out
        = Except.ok (GetResult.success mid s sn r d b) := by
  unfold getAttemptErr at he
  cases hc : (w j).connect with
  | failBefore e => rw [hc] at he; simp at he
  | failAfter e => rw [hc] at he; simp at he
  | ok =>
      rw [hc] at he
      cases hr : (w j).selectRaise with
      | some e => rw [hr] at he; simp at he
      | none =>
          rw [hr] at he
          cases hf : (w j).fetch with
          | notOk => rw [hf] at he; simp at he
          | raises e => rw [hf] at he; simp at he
          | ok m =>
              refine ⟨headerOrDecode m.subject "无主题".data,
                headerOrDecode m.sender "未知发件人".data,
                headerOrDecode m.recipient "未知收件人".data,
                (match m.date with
                  | some d => if d = [] then "未知时间".data else d
                  | none => "未知时间".data),
                extract_full_body m.body, ?_⟩
              simp [attemptGet, h, hc, getBody, hr, hf]

theorem attemptGet_nosleep (w : Nat → GetAttemptEnv) (mid : List Char)
    (j : Nat) (st : OpState) :
    sleepFilter (attemptGet w mid j st).evs = [] := by
  cases hst : st.imap with
  | some sid =>
      cases hr : (w j).selectRaise with
      | some e => simp [attemptGet, hst, getBody, hr, sleepFilter, isSleepEv]
      | none =>
          cases hf : (w j).fetch <;>
            simp [attemptGet, hst, getBody, hr, hf, sleepFilter, isSleepEv]
  | none =>
      cases hc : (w j).connect with
      | failBefore e => simp [attemptGet, hst, hc, sleepFilter, isSleepEv]
      | failAfter e => simp [attemptGet, hst, hc, sleepFilter, isSleepEv]
      | ok =>
          cases hr : (w j).selectRaise with
          | some e => simp [attemptGet, hst, hc, getBody, hr, sleepFilter, isSleepEv]
          | none =>
              cases hf : (w j).fetch <;>
                simp [attemptGet, hst, hc, getBody, hr, hf, sleepFilter, isSleepEv]

theorem attemptGet_cBC {w : Nat → GetAttemptEnv} {mid : List Char}
    {j : Nat} {st : OpState}
    (h : st.imap = none) (sess : Nat) :
    callsBeforeConn sess (attemptGet w mid j st).evs = false := by
  cases hc : (w j).connect with
  | failBefore e => simp [attemptGet, h, hc, callsBeforeConn, isSessCallOn, isConnOf]
  | failAfter e => simp [attemptGet, h, hc, callsBeforeConn, isSessCallOn, isConnOf]
  | ok =>
      by_cases hsid : sess = st.nextSid
      · subst hsid
        cases hr : (w j).selectRaise with
        | some e =>
            simp [attemptGet, h, hc, getBody, hr, callsBeforeConn, isSessCallOn, isConnOf]
        | none =>
            cases hf : (w j).fetch <;>
              simp [attemptGet, h, hc, getBody, hr, hf, callsBeforeConn,
                isSessCallOn, isConnOf]
      · cases hr : (w j).selectRaise with
        | some e =>
            simp [attemptGet, h, hc, getBody, hr, callsBeforeConn, isSessCallOn,
              isConnOf, Ne.symm hsid]
        | none =>
            cases hf : (w j).fetch <;>
              simp [attemptGet, h, hc, getBody, hr, hf, callsBeforeConn,
                isSessCallOn, isConnOf, Ne.symm hsid]

/-- C10: `decode_mime_words` is the identity on a header string containing no
MIME encoded-word fragments: `decode_header` then yields the single unmodified
text fragment and the accumulation loop passes text fragments through
unchanged, so the header is returned as-is. -/
theorem decode_mime_words_plain_id (s : List Char)
    (h : containsMarker s = false) :
    decode_mime_words s (decode_header_plain s) = s := by
  simp [decode_mime_words, decode_header_plain, concatFrags, fragText]

/-- Witness for C10 at a concrete plain ASCII header. -/
theorem decode_mime_words_plain_id_witness :
    containsMarker "Hello, World".data = false ∧
    decode_mime_words "Hello, World".data (decode_header_plain "Hello, World".data)
      = "Hello, World".data :=
  ⟨by decide, decode_mime_words_plain_id "Hello, World".data (by decide)⟩

/-- C9: body extraction is total at its boundary, in both variants: an empty
extraction result is replaced by the `"无正文内容"` placeholder, and a raising
decode is replaced by the `"正文解析失败"` placeholder instead of propagating. -/
theorem body_extraction_placeholders (msg : EmailMessage) :
    (bodyRawSummary msg = Except.error () → extract_body_summary msg = parseFailMsg) ∧
    (∀ b, bodyRawSummary msg = Except.ok b → (pyStrip b).map replNl = [] →
      extract_body_summary msg = noContentMsg) ∧
    (bodyRawFull msg = Except.error () → extract_full_body msg = parseFailMsg) ∧
    (∀ b, bodyRawFull msg = Except.ok b → pyStrip b = [] →
      extract_full_body msg = noContentMsg) := by
  refine ⟨?_, ?_, ?_, ?_⟩
  · intro h
    simp [extract_body_summary, h]
  · intro b hb hempty
    simp only [extract_body_summary, hb]
    rw [hempty]
    rfl
  · intro h
    simp [extract_full_body, h]
  · intro b hb hempty
    simp only [extract_full_body, hb]
    rw [hempty]
    rfl

/-- Witness for C9 at concrete messages: a part whose decode raises, and a
whitespace-only body. -/
theorem body_extraction_placeholders_witness :
    extract_body_summary (EmailMessage.single ⟨plainCT, Payload.raises⟩) = parseFailMsg ∧
    extract_body_summary (EmailMessage.single ⟨plainCT, Payload.ok " \n ".data⟩) = noContentMsg ∧
    extract_full_body (EmailMessage.single ⟨plainCT, Payload.raises⟩) = parseFailMsg ∧
    extract_full_body (EmailMessage.single ⟨plainCT, Payload.ok " \n ".data⟩) = noContentMsg :=
  ⟨(body_extraction_placeholders _).1 rfl,
   (body_extraction_placeholders _).2.1 " \n ".data rfl (by decide),
   (body_extraction_placeholders _).2.2.1 rfl,
   (body_extraction_placeholders _).2.2.2 " \n ".data rfl (by decide)⟩

/-- C8 (counterexample): the claim says a body of 200 characters or fewer is
returned by the summary path unchanged; for the empty body the source instead
returns the `"无正文内容"` placeholder. -/
theorem summary_small_body_counterexample :
    extract_body_summary (EmailMessage.single ⟨plainCT, Payload.ok []⟩) = noContentMsg ∧
    ¬ extract_body_summary (EmailMessage.single ⟨plainCT, Payload.ok []⟩)
        = (pyStrip []).map replNl := by
  refine ⟨by decide, by decide⟩

/-- C8 (amended): for a message from which both variants extract the same raw
body, a normalised body longer than 200 characters is truncated by the summary
path to its first 200 characters plus `"..."` while the full-body path returns
the untruncated stripped text, and a nonempty normalised body of at most 200
characters is returned by the summary path unchanged. -/
theorem summary_truncation (msg : EmailMessage) (b : List Char)
    (h1 : bodyRawSummary msg = Except.ok b)
    (h2 : bodyRawFull msg = Except.ok b) :
    (200 < ((pyStrip b).map replNl).length →
      extract_body_summary msg
          = ((pyStrip b).map replNl).take 200 ++ "...".data ∧
      extract_full_body msg = pyStrip b) ∧
    (((pyStrip b).map replNl).length ≤ 200 → (pyStrip b).map replNl ≠ [] →
      extract_body_summary msg = (pyStrip b).map replNl) := by
  constructor
  · intro hl
    constructor
    · simp only [extract_body_summary, h1]
      rw [if_pos (by omega : ((pyStrip b).map replNl).length > 200)]
      rw [if_neg (by simp)]
    · simp only [extract_full_body, h2]
      have hne : pyStrip b ≠ [] := by
        intro hcon
        rw [hcon] at hl
        simp at hl
      rw [if_neg hne]
  · intro hl hne
    simp only [extract_body_summary, h1]
    rw [if_neg (by omega : ¬ ((pyStrip b).map replNl).length > 200)]
    rw [if_neg hne]

set_option maxRecDepth 8000

/-- Witness for C8 at a concrete 250-character body. -/
theorem summary_truncation_witness :
    extract_body_summary (EmailMessage.single ⟨plainCT, Payload.ok (List.replicate 250 'a')⟩)
        = ((pyStrip (List.replicate 250 'a')).map replNl).take 200 ++ "...".data ∧
    extract_full_body (EmailMessage.single ⟨plainCT, Payload.ok (List.replicate 250 'a')⟩)
        = pyStrip (List.replicate 250 'a') :=
  (summary_truncation (EmailMessage.single ⟨plainCT, Payload.ok (List.replicate 250 'a')⟩)
    (List.replicate 250 'a') rfl rfl).1 (by decide)

set_option maxRecDepth 512

/-- C4 (counterexample): on an HTML-only multipart message the summary path
returns the `"无正文内容"` placeholder, not the tag-stripped HTML payload the
claim predicts (which the full-body path does return). -/
theorem summary_html_fallback_counterexample :
    extract_body_summary
        (EmailMessage.multipart [⟨htmlCT, Payload.ok "<p>Hello</p>".data⟩])
      = noContentMsg ∧
    extract_full_body
        (EmailMessage.multipart [⟨htmlCT, Payload.ok "<p>Hello</p>".data⟩])
      = "Hello".data ∧
    noContentMsg ≠ "Hello".data := by
  refine ⟨by decide, by decide, by decide⟩

/-- C4 (amended): the two body-extraction paths share only the text/plain
preference.  The `text/html` fallback exists solely in the full-body path: on
a multipart message with no `text/plain` part, the summary path returns the
`"无正文内容"` placeholder, while the full-body path on an HTML-only multipart
message returns the decoded payload with all `<...>` markup removed. -/
theorem summary_no_html_fallback :
    (∀ parts : List EmailPart, (∀ p ∈ parts, p.contentType ≠ plainCT) →
      extract_body_summary (EmailMessage.multipart parts) = noContentMsg) ∧
    (∀ h : List Char,
      extract_full_body (EmailMessage.multipart [⟨htmlCT, Payload.ok h⟩])
        = (if pyStrip (stripTags h) = [] then noContentMsg
           else pyStrip (stripTags h))) := by
  constructor
  · intro parts hnp
    have hfind : findPlain parts = Except.ok [] := by
      induction parts with
      | nil => rfl
      | cons p ps ih =>
          have hne : p.contentType ≠ plainCT := hnp p (by simp)
          simp only [findPlain]
          rw [if_neg hne]
          exact ih (fun q hq => hnp q (by simp [hq]))
    simp [extract_body_summary, bodyRawSummary, hfind, pyStrip]
  · intro h
    have hwalk : walkFull [⟨htmlCT, Payload.ok h⟩] [] = Except.ok (stripTags h) := by
      have hne : ¬ (htmlCT = plainCT) := by decide
      simp only [walkFull]
      rw [if_neg hne]
      simp [decodePayload]
    simp only [extract_full_body, bodyRawFull, hwalk]

/-- Witness for C4 (amended) at a concrete HTML-only multipart message. -/
theorem summary_no_html_fallback_witness :
    extract_body_summary
        (EmailMessage.multipart [⟨htmlCT, Payload.ok "<b>Hi</b>".data⟩])
      = noContentMsg ∧
    extract_full_body
        (EmailMessage.multipart [⟨htmlCT, Payload.ok "<b>Hi</b>".data⟩])
      = (if pyStrip (stripTags "<b>Hi</b>".data) = [] then noContentMsg
         else pyStrip (stripTags "<b>Hi</b>".data)) :=
  ⟨summary_no_html_fallback.1 [⟨htmlCT, Payload.ok "<b>Hi</b>".data⟩] (by decide),
   summary_no_html_fallback.2 "<b>Hi</b>".data⟩

theorem hasChar_eq_false_iff (c : Char) :
    ∀ l : List Char, hasChar c l = false ↔ c ∉ l := by
  intro l
  induction l with
  | nil => simp [hasChar]
  | cons d r ih =>
      simp only [hasChar, Bool.or_eq_false_iff, List.mem_cons, ih,
        decide_eq_false_iff_not]
      constructor
      · rintro ⟨h1, h2⟩ (h3 | h4)
        · exact h1 h3.symm
        · exact h2 h4
      · intro hn
        exact ⟨fun hd => hn (Or.inl hd.symm), fun hr => hn (Or.inr hr)⟩

theorem mem_of_mem_takeWhile {c : Char} {p : Char → Bool} :
    ∀ l : List Char, c ∈ l.takeWhile p → c ∈ l := by
  intro l
  induction l with
  | nil => simp [List.takeWhile]
  | cons d r ih =>
      intro h
      by_cases hp : p d
      · rw [List.takeWhile_cons_of_pos hp] at h
        rcases List.mem_cons.mp h with h1 | h2
        · simp [h1]
        · exact List.mem_cons_of_mem d (ih h2)
      · rw [List.takeWhile_cons_of_neg hp] at h
        simp at h

/-- C6: a recipient lacking an `'@'`, or whose domain portion (the text after
the first `'@'`) lacks a `'.'`, makes `mail_send` return the
`INVALID_EMAIL_FORMAT` failure immediately: no attempt runs, no protocol event
is emitted, and the connection state is untouched. -/
theorem mail_send_invalid_format (w : Nat → SendAttemptEnv) (rcpt : List Char)
    (rc delay : Nat) (st : OpState)
    (h : '@' ∉ rcpt ∨ '.' ∉ afterFirstAt rcpt) :
    mail_send w rcpt rc delay st
      = ⟨some (SendResult.failure invalidEmailMsg none), st, [], 0⟩ := by
  have hinv : invalidTo rcpt = true := by
    rcases h with h1 | h2
    · have := (hasChar_eq_false_iff '@' rcpt).mpr h1
      simp [invalidTo, this]
    · have hdp : '.' ∉ domainPart rcpt := by
        intro hmem
        exact h2 (mem_of_mem_takeWhile _ hmem)
      have := (hasChar_eq_false_iff '.' (domainPart rcpt)).mpr hdp
      simp [invalidTo, this]
  simp [mail_send, hinv]

/-- Witness for C6 at the spec's concrete example recipient. -/
theorem mail_send_invalid_format_witness :
    mail_send (fun _ => ⟨ConnectOutcome.ok, Except.ok (), 0⟩) "not-an-email".data
        3 2 ⟨none, none, 0⟩
      = ⟨some (SendResult.failure invalidEmailMsg none), ⟨none, none, 0⟩, [], 0⟩ :=
  mail_send_invalid_format _ "not-an-email".data 3 2 ⟨none, none, 0⟩
    (Or.inl (by decide))

/-- C3 (counterexample): `close_connections` does not clear the session
references on every path: if the IMAP `close()` call raises, both references
survive untouched. -/
theorem close_connections_counterexample :
    ¬ (∀ (env : CloseEnv) (st : OpState),
        (close_connections env st).imap = none ∧
        (close_connections env st).smtp = none) := by
  intro hAll
  have h := (hAll ⟨false, true, true⟩ ⟨some 0, some 1, 2⟩).1
  exact absurd h (by decide)

/-- C3 (amended): `close_connections` never raises (it is a total function of
the environment); it clears both session references when every close step
succeeds, and when called with no session open it completes and leaves both
slots empty; but a raising close step aborts the remaining clean-up, leaving
the not-yet-cleared references set. -/
theorem close_connections_clears (env : CloseEnv) (st : OpState) :
    ((env.imapCloseOk = true ∧ env.imapLogoutOk = true ∧ env.smtpQuitOk = true) →
      (close_connections env st).imap = none ∧
      (close_connections env st).smtp = none) ∧
    ((st.imap = none ∧ st.smtp = none) → close_connections env st = st) := by
  constructor
  · rintro ⟨h1, h2, h3⟩
    cases hi : st.imap with
    | some a =>
        cases hs : st.smtp with
        | some b => simp [close_connections, closeSmtpStep, hi, hs, h1, h2, h3]
        | none => simp [close_connections, closeSmtpStep, hi, hs, h1, h2, h3]
    | none =>
        cases hs : st.smtp with
        | some b => simp [close_connections, closeSmtpStep, hi, hs, h3]
        | none => simp [close_connections, closeSmtpStep, hi, hs]
  · rintro ⟨h1, h2⟩
    simp [close_connections, closeSmtpStep, h1, h2]

/-- Witness for C3 (amended) at concrete states. -/
theorem close_connections_clears_witness :
    ((close_connections ⟨true, true, true⟩ ⟨some 0, some 1, 2⟩).imap = none ∧
     (close_connections ⟨true, true, true⟩ ⟨some 0, some 1, 2⟩).smtp = none) ∧
    close_connections ⟨false, false, false⟩ ⟨none, none, 0⟩ = ⟨none, none, 0⟩ :=
  ⟨(close_connections_clears ⟨true, true, true⟩ ⟨some 0, some 1, 2⟩).1
      ⟨rfl, rfl, rfl⟩,
   (close_connections_clears ⟨false, false, false⟩ ⟨none, none, 0⟩).2 ⟨rfl, rfl⟩⟩

/-- C7 (counterexample): with `retry_count = 0` the retry loop body never
runs and the operation falls off the end of the function, returning Python's
`None` (modelled as `none`) instead of an operation-result dict. -/
theorem operations_total_counterexample :
    ¬ (∀ (w : Nat → ReadAttemptEnv) (folder : List Char) (limit : Int)
         (rc delay : Nat) (st : OpState),
         (mail_read w folder limit rc delay st).result.isSome = true) := by
  intro hAll
  have h := hAll (fun _ => ⟨ConnectOutcome.ok, true, true, [], fun _ => FetchOutcome.notOk⟩)
    "INBOX".data 10 0 2 ⟨none, none, 0⟩
  exact absurd h (by decide)

/-- C7 (amended): for every configuration with `retry_count ≥ 1` and every
environment, each of the three operations returns an operation result (the
loop either returns the attempt's value or, once attempts are exhausted, the
failure dict; no exception escapes and no `None` is returned). -/
theorem operations_return_result :
    (∀ (w : Nat → ReadAttemptEnv) (folder : List Char) (limit : Int)
       (rc delay : Nat) (st : OpState), 1 ≤ rc →
       ∃ r, (mail_read w folder limit rc delay st).result = some r) ∧
    (∀ (w : Nat → SendAttemptEnv) (rcpt : List Char)
       (rc delay : Nat) (st : OpState), 1 ≤ rc →
       ∃ r, (mail_send w rcpt rc delay st).result = some r) ∧
    (∀ (w : Nat → GetAttemptEnv) (mid : List Char)
       (rc delay : Nat) (st : OpState), 1 ≤ rc →
       ∃ r, (mail_get w mid rc delay st).result = some r) := by
  refine ⟨?_, ?_, ?_⟩
  · intro w folder limit rc delay st hrc
    exact Option.isSome_iff_exists.mp
      (retryGo_isSome (attemptRead w folder limit) _ _ _ rc 0 st hrc)
  · intro w rcpt rc delay st hrc
    by_cases hv : invalidTo rcpt
    · exact ⟨SendResult.failure invalidEmailMsg none, by simp [mail_send, hv]⟩
    · have h := retryGo_isSome (attemptSend w rcpt)
        (fun i e => SendResult.failure e (some (w i).now))
        (fun s => { s with smtp := none }) delay rc 0 st hrc
      rw [Option.isSome_iff_exists] at h
      obtain ⟨r, hr⟩ := h
      exact ⟨r, by simp [mail_send, hv]; exact hr⟩
  · intro w mid rc delay st hrc
    exact Option.isSome_iff_exists.mp
      (retryGo_isSome (attemptGet w mid) _ _ _ rc 0 st hrc)

/-- Witness for C7 (amended) at concrete worlds with `retry_count = 1`. -/
theorem operations_return_result_witness :
    (∃ r, (mail_read (fun _ => ⟨ConnectOutcome.ok, true, true, [], fun _ => FetchOutcome.notOk⟩)
        "INBOX".data 10 1 2 ⟨none, none, 0⟩).result = some r) ∧
    (∃ r, (mail_send (fun _ => ⟨ConnectOutcome.ok, Except.ok (), 0⟩) "a@b.c".data
        1 2 ⟨none, none, 0⟩).result = some r) ∧
    (∃ r, (mail_get (fun _ => ⟨ConnectOutcome.ok, none, GetFetchOutcome.notOk⟩) "7".data
        1 2 ⟨none, none, 0⟩).result = some r) :=
  ⟨operations_return_result.1 _ "INBOX".data 10 1 2 ⟨none, none, 0⟩ (by decide),
   operations_return_result.2.1 _ "a@b.c".data 1 2 ⟨none, none, 0⟩ (by decide),
   operations_return_result.2.2 _ "7".data 1 2 ⟨none, none, 0⟩ (by decide)⟩

theorem pyTakeLast_pos {α : Type} (xs : List α) (limit : Int) (h : 1 ≤ limit) :
    pyTakeLast xs limit = xs.drop (xs.length - limit.toNat) := by
  unfold pyTakeLast pySliceFrom
  by_cases hc : (xs.length : Int) ≥ limit
  · rw [if_pos hc, if_pos (by omega : -limit < 0)]
    congr 1
    omega
  · rw [if_neg hc]
    have hz : xs.length - limit.toNat = 0 := by omega
    rw [hz, List.drop_zero]

/-- C5 (amended): a successful `mail_read` attempt (live session, `select` and
`search` succeeding) returns, for `limit ≥ 1`, the summaries of the last
`min(limit, n)` message identifiers in reversed (newest-first) order, skipping
ids whose fetch or parse fails, with `count` the number of successfully
processed messages; for an empty folder it returns success with an empty list
and `count = 0` for every `limit`. -/
theorem mail_read_listing (w : Nat → ReadAttemptEnv) (folder : List Char)
    (limit : Int) (rc delay : Nat) (st : OpState) (sid : Nat)
    (hst : st.imap = some sid) (hrc : 1 ≤ rc)
    (hs : (w 0).selectOk = true) (hq : (w 0).searchOk = true) :
    ((w 0).ids = [] →
      (mail_read w folder limit rc delay st).result
        = some (ReadResult.success [] 0)) ∧
    (1 ≤ limit →
      (mail_read w folder limit rc delay st).result
        = some (ReadResult.success
            (readSummaries (w 0).fetch
              (((w 0).ids.drop ((w 0).ids.length - limit.toNat)).reverse))
            (readSummaries (w 0).fetch
              (((w 0).ids.drop ((w 0).ids.length - limit.toNat)).reverse)).length)) := by
  obtain ⟨m, rfl⟩ : ∃ m, rc = m + 1 := ⟨rc - 1, by omega⟩
  constructor
  · intro hids
    have hout : (attemptRead w folder limit 0 st).out
        = Except.ok (ReadResult.success [] 0) := by
      simp only [attemptRead, hst]
      unfold readBody
      rw [if_pos hs, if_pos hq, if_pos (by simp [hids])]
    rw [show mail_read w folder limit (m + 1) delay st
        = retryGo (attemptRead w folder limit) (fun _ e => ReadResult.failure e)
            (fun s => { s with imap := none }) delay 0 (m + 1) st from rfl]
    rw [retryGo_succ_ok hout]
  · intro hlim
    by_cases hids : (w 0).ids.isEmpty
    · have hids' : (w 0).ids = [] := by
        cases hh : (w 0).ids with
        | nil => rfl
        | cons a l => rw [hh] at hids; simp at hids
      have hout : (attemptRead w folder limit 0 st).out
          = Except.ok (ReadResult.success [] 0) := by
        simp only [attemptRead, hst]
        unfold readBody
        rw [if_pos hs, if_pos hq, if_pos hids]
      rw [show mail_read w folder limit (m + 1) delay st
          = retryGo (attemptRead w folder limit) (fun _ e => ReadResult.failure e)
              (fun s => { s with imap := none }) delay 0 (m + 1) st from rfl]
      rw [retryGo_succ_ok hout]
      simp [hids', readSummaries]
    · have hout : (attemptRead w folder limit 0 st).out
          = Except.ok (ReadResult.success
              (fetchAll (w 0).fetch sid ((pyTakeLast (w 0).ids limit).reverse)).1
              (fetchAll (w 0).fetch sid ((pyTakeLast (w 0).ids limit).reverse)).1.length) := by
        simp only [attemptRead, hst]
        unfold readBody
        rw [if_pos hs, if_pos hq, if_neg hids]
      rw [show mail_read w folder limit (m + 1) delay st
          = retryGo (attemptRead w folder limit) (fun _ e => ReadResult.failure e)
              (fun s => { s with imap := none }) delay 0 (m + 1) st from rfl]
      rw [retryGo_succ_ok hout]
      dsimp only
      rw [fetchAll_fst, pyTakeLast_pos _ _ hlim]

/-- C5 (counterexample): with `limit = 0` against a folder with 2 messages,
the slice `message_ids[-0:]` is the whole list, so `mail_read` returns all 2
summaries rather than the `min(0, 2) = 0` the claim requires. -/
theorem mail_read_limit_zero_counterexample :
    (mail_read (fun _ => ⟨ConnectOutcome.ok, true, true, ["1".data, "2".data],
        fun _ => FetchOutcome.ok ⟨none, none, none, none,
          EmailMessage.single ⟨plainCT, Payload.ok "hi".data⟩⟩⟩)
      "INBOX".data 0 1 2 ⟨some 0, none, 1⟩).result
      = some (ReadResult.success
          [mkSummary "2".data ⟨none, none, none, none,
             EmailMessage.single ⟨plainCT, Payload.ok "hi".data⟩⟩,
           mkSummary "1".data ⟨none, none, none, none,
             EmailMessage.single ⟨plainCT, Payload.ok "hi".data⟩⟩] 2) ∧
    (2 : Nat) ≠ min ((0 : Int)).toNat 2 := by
  refine ⟨by decide, by decide⟩

/-- A sample parsed message used by concrete environments. -/
def sampleMail : RawMail :=
  ⟨none, none, none, none, EmailMessage.single ⟨plainCT, Payload.ok "hi".data⟩⟩

/-- Twenty message identifiers, in IMAP search order (oldest first). -/
def ids20 : List (List Char) :=
  ["1".data, "2".data, "3".data, "4".data, "5".data, "6".data, "7".data,
   "8".data, "9".data, "10".data, "11".data, "12".data, "13".data, "14".data,
   "15".data, "16".data, "17".data, "18".data, "19".data, "20".data]

/-- A world whose folder holds 20 messages, every fetch succeeding. -/
def w20 : Nat → ReadAttemptEnv :=
  fun _ => ⟨ConnectOutcome.ok, true, true, ids20, fun _ => FetchOutcome.ok sampleMail⟩

/-- Witness for C5 (amended): `limit = 5` against 20 messages yields exactly
the 5 newest identifiers in newest-first order. -/
theorem mail_read_listing_witness :
    (mail_read w20 "INBOX".data 5 3 2 ⟨some 0, none, 1⟩).result
      = some (ReadResult.success
          (readSummaries (w20 0).fetch
            (((w20 0).ids.drop ((w20 0).ids.length - (5 : Int).toNat)).reverse))
          (readSummaries (w20 0).fetch
            (((w20 0).ids.drop ((w20 0).ids.length - (5 : Int).toNat)).reverse)).length) ∧
    (readSummaries (w20 0).fetch
        (((w20 0).ids.drop ((w20 0).ids.length - (5 : Int).toNat)).reverse)).length = 5 ∧
    ((w20 0).ids.drop ((w20 0).ids.length - (5 : Int).toNat)).reverse
      = ["20".data, "19".data, "18".data, "17".data, "16".data] :=
  ⟨(mail_read_listing w20 "INBOX".data 5 3 2 ⟨some 0, none, 1⟩ 0 rfl (by omega)
      rfl rfl).2 (by omega),
   by decide, by decide⟩

/-- C2, formalised: over a two-operation run, after the first operation
returns a failure result, no session an attempt failed against is used by the
second operation before being re-established. -/
def c2Statement : Prop :=
  ∀ (w1 w2 : Nat → ReadAttemptEnv) (folder : List Char) (limit : Int)
    (rc delay : Nat) (st0 : OpState),
    st0.imap = none →
    (∃ e, (mail_read w1 folder limit rc delay st0).result
        = some (ReadResult.failure e)) →
    ∀ s, afterCallFails s (mail_read w1 folder limit rc delay st0).trace = true →
      callsBeforeConn s
        (mail_read w2 folder limit rc delay
          (mail_read w1 folder limit rc delay st0).st).trace = false

/-- A world whose `select` always fails (each attempt connects, then fails). -/
def wSelFail : Nat → ReadAttemptEnv :=
  fun _ => ⟨ConnectOutcome.ok, false, true, [], fun _ => FetchOutcome.notOk⟩

/-- A world in which every protocol call succeeds over an empty folder. -/
def wAllOk : Nat → ReadAttemptEnv :=
  fun _ => ⟨ConnectOutcome.ok, true, true, [], fun _ => FetchOutcome.notOk⟩

/-- C2 (counterexample): run `mail_read` with `retry_count = 2` against a
world whose `select` always fails — the final attempt fails on session 1 and
the failure return leaves `imap_conn` set to session 1; a second `mail_read`
then issues its `select` on session 1 without re-establishing it. -/
theorem session_reuse_counterexample : ¬ c2Statement := by
  intro hAll
  have h := hAll wSelFail wAllOk "INBOX".data 10 2 1 ⟨none, none, 0⟩ rfl
    ⟨folderNotFound "INBOX".data, by decide⟩ 1 (by decide)
  exact absurd h (by decide)

/-- C2 (amended): within a single operation started with no live session,
every protocol call happens on a session established earlier in that same
operation's trace (each retry reconnects after invalidating the failed
session); but when every attempt fails and the last attempt had connected, the
operation returns its failure result with the failed session still stored, to
be taken over by a subsequent operation. -/
theorem session_establishment :
    (∀ (w : Nat → ReadAttemptEnv) (folder : List Char) (limit : Int)
       (rc delay : Nat) (st : OpState), st.imap = none → ∀ sess,
       callsBeforeConn sess (mail_read w folder limit rc delay st).trace = false) ∧
    (∀ (w : Nat → GetAttemptEnv) (mid : List Char)
       (rc delay : Nat) (st : OpState), st.imap = none → ∀ sess,
       callsBeforeConn sess (mail_get w mid rc delay st).trace = false) ∧
    (∀ (w : Nat → SendAttemptEnv) (rcpt : List Char)
       (rc delay : Nat) (st : OpState), st.smtp = none → ∀ sess,
       callsBeforeConn sess (mail_send w rcpt rc delay st).trace = false) ∧
    (∀ (w : Nat → ReadAttemptEnv) (folder : List Char) (limit : Int)
       (rc delay : Nat) (st : OpState) (e : Nat → List Char),
       1 ≤ rc → st.imap = none →
       (∀ j, readAttemptErr (w j) folder = some (e j)) →
       (w (rc - 1)).connect = ConnectOutcome.ok →
       ∃ sid, (mail_read w folder limit rc delay st).st.imap = some sid) := by
  refine ⟨?_, ?_, ?_, ?_⟩
  · intro w folder limit rc delay st hst sess
    exact retryGo_noStaleCalls (attemptRead w folder limit) _ _ _
      (fun s => s.imap = none) (fun s => rfl)
      (fun j s hP sess2 => attemptRead_cBC hP sess2) rc 0 st hst sess
  · intro w mid rc delay st hst sess
    exact retryGo_noStaleCalls (attemptGet w mid) _ _ _
      (fun s => s.imap = none) (fun s => rfl)
      (fun j s hP sess2 => attemptGet_cBC hP sess2) rc 0 st hst sess
  · intro w rcpt rc delay st hst sess
    by_cases hv : invalidTo rcpt
    · simp [mail_send, hv]
      rfl
    · have h := retryGo_noStaleCalls (attemptSend w rcpt)
        (fun i e => SendResult.failure e (some (w i).now))
        (fun s => { s with smtp := none })
        delay (fun s => s.smtp = none) (fun s => rfl)
        (fun j s hP sess2 => attemptSend_cBC hP sess2) rc 0 st hst sess
      simpa [mail_send, hv] using h
  · intro w folder limit rc delay st e hrc hst hall hc
    obtain ⟨_, _, _, sfin, hPf, h4⟩ := retryGo_all_fail (attemptRead w folder limit)
      (fun _ e => ReadResult.failure e) (fun s => { s with imap := none }) delay
      (fun s => s.imap = none) e (fun s => rfl)
      (fun j s hP => attemptRead_err hP (hall j))
      (fun j s _ => attemptRead_nosleep w folder limit j s) rc 0 st hrc hst
    rw [Nat.zero_add] at h4
    refine ⟨sfin.nextSid, ?_⟩
    rw [show (mail_read w folder limit rc delay st).st
        = (attemptRead w folder limit (rc - 1) sfin).st from h4]
    exact attemptRead_st_conn hPf hc

/-- Witness for C2 (amended) at concrete worlds. -/
theorem session_establishment_witness :
    callsBeforeConn 0 (mail_read wAllOk "INBOX".data 10 2 1 ⟨none, none, 0⟩).trace
      = false ∧
    (∃ sid, (mail_read wSelFail "INBOX".data 10 2 1 ⟨none, none, 0⟩).st.imap
      = some sid) :=
  ⟨session_establishment.1 wAllOk "INBOX".data 10 2 1 ⟨none, none, 0⟩ rfl 0,
   session_establishment.2.2.2 wSelFail "INBOX".data 10 2 1 ⟨none, none, 0⟩
     (fun _ => folderNotFound "INBOX".data) (by omega) rfl (fun _ => rfl) rfl⟩

/-- C1: the shared retry semantics of the three operations.  With at least one
configured attempt: (a) when every attempt raises, the operation returns the
failure result carrying the last error's string after exactly `retry_count`
attempts and `retry_count - 1` sleeps of `retry_delay`; (b) when the first
`retry_count - 1` attempts raise and the final one returns, the operation
returns that success with exactly `retry_count - 1` sleeps and performs no
attempt beyond the `retry_count`-th. -/
theorem retry_semantics :
    (∀ (w : Nat → ReadAttemptEnv) (folder : List Char) (limit : Int)
       (rc delay : Nat) (st : OpState) (e : Nat → List Char),
       1 ≤ rc → st.imap = none →
       (∀ j, readAttemptErr (w j) folder = some (e j)) →
       (mail_read w folder limit rc delay st).result
           = some (ReadResult.failure (e (rc - 1))) ∧
       (mail_read w folder limit rc delay st).attempts = rc ∧
       sleepFilter (mail_read w folder limit rc delay st).trace
           = List.replicate (rc - 1) (Ev.sleep delay)) ∧
    (∀ (w : Nat → ReadAttemptEnv) (folder : List Char) (limit : Int)
       (rc delay : Nat) (st : OpState) (e : Nat → List Char),
       1 ≤ rc → st.imap = none →
       (∀ j, j < rc - 1 → readAttemptErr (w j) folder = some (e j)) →
       readAttemptErr (w (rc - 1)) folder = none →
       (∃ es n, (mail_read w folder limit rc delay st).result
           = some (ReadResult.success es n)) ∧
       (mail_read w folder limit rc delay st).attempts = rc ∧
       sleepFilter (mail_read w folder limit rc delay st).trace
           = List.replicate (rc - 1) (Ev.sleep delay)) ∧
    (∀ (w : Nat → SendAttemptEnv) (rcpt : List Char)
       (rc delay : Nat) (st : OpState) (e : Nat → List Char),
       1 ≤ rc → st.smtp = none → invalidTo rcpt = false →
       (∀ j, sendAttemptErr (w j) = some (e j)) →
       (mail_send w rcpt rc delay st).result
           = some (SendResult.failure (e (rc - 1)) (some (w (rc - 1)).now)) ∧
       (mail_send w rcpt rc delay st).attempts = rc ∧
       sleepFilter (mail_send w rcpt rc delay st).trace
           = List.replicate (rc - 1) (Ev.sleep delay)) ∧
    (∀ (w : Nat → SendAttemptEnv) (rcpt : List Char)
       (rc delay : Nat) (st : OpState) (e : Nat → List Char),
       1 ≤ rc → st.smtp = none → invalidTo rcpt = false →
       (∀ j, j < rc - 1 → sendAttemptErr (w j) = some (e j)) →
       sendAttemptErr (w (rc - 1)) = none →
       (∃ m t, (mail_send w rcpt rc delay st).result
           = some (SendResult.success m t)) ∧
       (mail_send w rcpt rc delay st).attempts = rc ∧
       sleepFilter (mail_send w rcpt rc delay st).trace
           = List.replicate (rc - 1) (Ev.sleep delay)) ∧
    (∀ (w : Nat → GetAttemptEnv) (mid : List Char)
       (rc delay : Nat) (st : OpState) (e : Nat → List Char),
       1 ≤ rc → st.imap = none →
       (∀ j, getAttemptErr (w j) mid = some (e j)) →
       (mail_get w mid rc delay st).result
           = some (GetResult.failure (e (rc - 1))) ∧
       (mail_get w mid rc delay st).attempts = rc ∧
       sleepFilter (mail_get w mid rc delay st).trace
           = List.replicate (rc - 1) (Ev.sleep delay)) ∧
    (∀ (w : Nat → GetAttemptEnv) (mid : List Char)
       (rc delay : Nat) (st : OpState) (e : Nat → List Char),
       1 ≤ rc → st.imap = none →
       (∀ j, j < rc - 1 → getAttemptErr (w j) mid = some (e j)) →
       getAttemptErr (w (rc - 1)) mid = none →
       (∃ s sn r d b, (mail_get w mid rc delay st).result
           = some (GetResult.success mid s sn r d b)) ∧
       (mail_get w mid rc delay st).attempts = rc ∧
       sleepFilter (mail_get w mid rc delay st).trace
           = List.replicate (rc - 1) (Ev.sleep delay)) := by
  refine ⟨?_, ?_, ?_, ?_, ?_, ?_⟩
  · intro w folder limit rc delay st e hrc hst hall
    obtain ⟨h1, h2, h3, _⟩ := retryGo_all_fail (attemptRead w folder limit)
      (fun _ e => ReadResult.failure e) (fun s => { s with imap := none }) delay
      (fun s => s.imap = none) e (fun s => rfl)
      (fun j s hP => attemptRead_err hP (hall j))
      (fun j s _ => attemptRead_nosleep w folder limit j s) rc 0 st hrc hst
    rw [Nat.zero_add] at h1
    exact ⟨h1, h2, h3⟩
  · intro w folder limit rc delay st e hrc hst hfailH hnone
    obtain ⟨k, rfl⟩ : ∃ k, rc = k + 1 := ⟨rc - 1, by omega⟩
    obtain ⟨⟨rv, hrv, es, n, hQ⟩, h2, h3⟩ := retryGo_fail_then_ok
      (attemptRead w folder limit) (fun _ e => ReadResult.failure e)
      (fun s => { s with imap := none }) delay
      (fun s => s.imap = none) e
      (fun r => ∃ es n, r = ReadResult.success es n)
      (fun s => rfl)
      (fun j s _ => attemptRead_nosleep w folder limit j s)
      k 0 st hst
      (fun j s hj hP => by
        rw [Nat.zero_add]
        exact attemptRead_err hP (hfailH j hj))
      (fun s hP => by
        rw [Nat.zero_add]
        obtain ⟨es, n, hout⟩ := attemptRead_ok hP hnone
        exact ⟨ReadResult.success es n, hout, es, n, rfl⟩)
    subst hQ
    exact ⟨⟨es, n, hrv⟩, h2, h3⟩
  · intro w rcpt rc delay st e hrc hst hv hall
    obtain ⟨h1, h2, h3, _⟩ := retryGo_all_fail (attemptSend w rcpt)
      (fun i e => SendResult.failure e (some (w i).now))
      (fun s => { s with smtp := none }) delay
      (fun s => s.smtp = none) e (fun s => rfl)
      (fun j s hP => attemptSend_err hP (hall j))
      (fun j s _ => attemptSend_nosleep w rcpt j s) rc 0 st hrc hst
    rw [Nat.zero_add] at h1
    have hms : mail_send w rcpt rc delay st
        = retryGo (attemptSend w rcpt)
            (fun i e => SendResult.failure e (some (w i).now))
            (fun s => { s with smtp := none }) delay 0 rc st := by
      simp [mail_send, hv]
    rw [hms]
    exact ⟨h1, h2, h3⟩
  · intro w rcpt rc delay st e hrc hst hv hfailH hnone
    obtain ⟨k, rfl⟩ : ∃ k, rc = k + 1 := ⟨rc - 1, by omega⟩
    obtain ⟨⟨rv, hrv, m, t, hQ⟩, h2, h3⟩ := retryGo_fail_then_ok
      (attemptSend w rcpt)
      (fun i e => SendResult.failure e (some (w i).now))
      (fun s => { s with smtp := none }) delay
      (fun s => s.smtp = none) e
      (fun r => ∃ m t, r = SendResult.success m t)
      (fun s => rfl)
      (fun j s _ => attemptSend_nosleep w rcpt j s)
      k 0 st hst
      (fun j s hj hP => by
        rw [Nat.zero_add]
        exact attemptSend_err hP (hfailH j hj))
      (fun s hP => by
        rw [Nat.zero_add]
        obtain ⟨m, t, hout⟩ := attemptSend_ok hP hnone
        exact ⟨SendResult.success m t, hout, m, t, rfl⟩)
    subst hQ
    have hms : mail_send w rcpt (k + 1) delay st
        = retryGo (attemptSend w rcpt)
            (fun i e => SendResult.failure e (some (w i).now))
            (fun s => { s with smtp := none }) delay 0 (k + 1) st := by
      simp [mail_send, hv]
    rw [hms]
    exact ⟨⟨m, t, hrv⟩, h2, h3⟩
  · intro w mid rc delay st e hrc hst hall
    obtain ⟨h1, h2, h3, _⟩ := retryGo_all_fail (attemptGet w mid)
      (fun _ e => GetResult.failure e) (fun s => { s with imap := none }) delay
      (fun s => s.imap = none) e (fun s => rfl)
      (fun j s hP => attemptGet_err hP (hall j))
      (fun j s _ => attemptGet_nosleep w mid j s) rc 0 st hrc hst
    rw [Nat.zero_add] at h1
    exact ⟨h1, h2, h3⟩
  · intro w mid rc delay st e hrc hst hfailH hnone
    obtain ⟨k, rfl⟩ : ∃ k, rc = k + 1 := ⟨rc - 1, by omega⟩
    obtain ⟨⟨rv, hrv, s2, sn, r2, d2, b2, hQ⟩, h2, h3⟩ := retryGo_fail_then_ok
      (attemptGet w mid) (fun _ e => GetResult.failure e)
      (fun s => { s with imap := none }) delay
      (fun s => s.imap = none) e
      (fun r => ∃ s2 sn r2 d2 b2, r = GetResult.success mid s2 sn r2 d2 b2)
      (fun s => rfl)
      (fun j s _ => attemptGet_nosleep w mid j s)
      k 0 st hst
      (fun j s hj hP => by
        rw [Nat.zero_add]
        exact attemptGet_err hP (hfailH j hj))
      (fun s hP => by
        rw [Nat.zero_add]
        obtain ⟨s2, sn, r2, d2, b2, hout⟩ := attemptGet_ok hP hnone
        exact ⟨GetResult.success mid s2 sn r2 d2 b2, hout, s2, sn, r2, d2, b2, rfl⟩)
    subst hQ
    exact ⟨⟨s2, sn, r2, d2, b2, hrv⟩, h2, h3⟩

/-- A send world whose connect always raises. -/
def wSendFail : Nat → SendAttemptEnv :=
  fun _ => ⟨ConnectOutcome.failBefore "boom".data, Except.ok (), 5⟩

/-- A send world whose first attempt raises and whose second succeeds. -/
def wSendRecover : Nat → SendAttemptEnv :=
  fun i => if i = 0 then ⟨ConnectOutcome.failBefore "boom".data, Except.ok (), 5⟩
           else ⟨ConnectOutcome.ok, Except.ok (), 9⟩

/-- A get world whose connect always raises. -/
def wGetFail : Nat → GetAttemptEnv :=
  fun _ => ⟨ConnectOutcome.failBefore "down".data, none, GetFetchOutcome.notOk⟩

/-- A get world whose first attempt raises and whose second succeeds. -/
def wGetRecover : Nat → GetAttemptEnv :=
  fun i => if i = 0 then ⟨ConnectOutcome.failBefore "down".data, none, GetFetchOutcome.notOk⟩
           else ⟨ConnectOutcome.ok, none, GetFetchOutcome.ok sampleMail⟩

/-- A read world whose first attempt fails on `select` and whose second
attempt succeeds over an empty folder. -/
def wReadRecover : Nat → ReadAttemptEnv :=
  fun i => if i = 0 then ⟨ConnectOutcome.ok, false, true, [], fun _ => FetchOutcome.notOk⟩
           else ⟨ConnectOutcome.ok, true, true, [], fun _ => FetchOutcome.notOk⟩

/-- Witness for C1 at concrete worlds with `retry_count = 2`,
`retry_delay = 7`. -/
theorem retry_semantics_witness :
    ((mail_read wSelFail "INBOX".data 10 2 7 ⟨none, none, 0⟩).result
        = some (ReadResult.failure (folderNotFound "INBOX".data)) ∧
     (mail_read wSelFail "INBOX".data 10 2 7 ⟨none, none, 0⟩).attempts = 2 ∧
     sleepFilter (mail_read wSelFail "INBOX".data 10 2 7 ⟨none, none, 0⟩).trace
        = List.replicate 1 (Ev.sleep 7)) ∧
    ((∃ es n, (mail_read wReadRecover "INBOX".data 10 2 7 ⟨none, none, 0⟩).result
        = some (ReadResult.success es n)) ∧
     (mail_read wReadRecover "INBOX".data 10 2 7 ⟨none, none, 0⟩).attempts = 2 ∧
     sleepFilter (mail_read wReadRecover "INBOX".data 10 2 7 ⟨none, none, 0⟩).trace
        = List.replicate 1 (Ev.sleep 7)) ∧
    ((mail_send wSendFail "a@b.c".data 2 7 ⟨none, none, 0⟩).result
        = some (SendResult.failure "boom".data (some 5)) ∧
     (mail_send wSendFail "a@b.c".data 2 7 ⟨none, none, 0⟩).attempts = 2 ∧
     sleepFilter (mail_send wSendFail "a@b.c".data 2 7 ⟨none, none, 0⟩).trace
        = List.replicate 1 (Ev.sleep 7)) ∧
    ((∃ m t, (mail_send wSendRecover "a@b.c".data 2 7 ⟨none, none, 0⟩).result
        = some (SendResult.success m t)) ∧
     (mail_send wSendRecover "a@b.c".data 2 7 ⟨none, none, 0⟩).attempts = 2 ∧
     sleepFilter (mail_send wSendRecover "a@b.c".data 2 7 ⟨none, none, 0⟩).trace
        = List.replicate 1 (Ev.sleep 7)) ∧
    ((mail_get wGetFail "7".data 2 7 ⟨none, none, 0⟩).result
        = some (GetResult.failure "down".data) ∧
     (mail_get wGetFail "7".data 2 7 ⟨none, none, 0⟩).attempts = 2 ∧
     sleepFilter (mail_get wGetFail "7".data 2 7 ⟨none, none, 0⟩).trace
        = List.replicate 1 (Ev.sleep 7)) ∧
    ((∃ s sn r d b, (mail_get wGetRecover "7".data 2 7 ⟨none, none, 0⟩).result
        = some (GetResult.success "7".data s sn r d b)) ∧
     (mail_get wGetRecover "7".data 2 7 ⟨none, none, 0⟩).attempts = 2 ∧
     sleepFilter (mail_get wGetRecover "7".data 2 7 ⟨none, none, 0⟩).trace
        = List.replicate 1 (Ev.sleep 7)) :=
  ⟨retry_semantics.1 wSelFail "INBOX".data 10 2 7 ⟨none, none, 0⟩
     (fun _ => folderNotFound "INBOX".data) (by omega) rfl (fun _ => rfl),
   retry_semantics.2.1 wReadRecover "INBOX".data 10 2 7 ⟨none, none, 0⟩
     (fun _ => folderNotFound "INBOX".data) (by omega) rfl
     (fun j hj => by
        have hj0 : j = 0 := by omega
        subst hj0
        rfl)
     rfl,
   retry_semantics.2.2.1 wSendFail "a@b.c".data 2 7 ⟨none, none, 0⟩
     (fun _ => "boom".data) (by omega) rfl (by decide) (fun _ => rfl),
   retry_semantics.2.2.2.1 wSendRecover "a@b.c".data 2 7 ⟨none, none, 0⟩
     (fun _ => "boom".data) (by omega) rfl (by decide)
     (fun j hj => by
        have hj0 : j = 0 := by omega
        subst hj0
        rfl)
     rfl,
   retry_semantics.2.2.2.2.1 wGetFail "7".data 2 7 ⟨none, none, 0⟩
     (fun _ => "down".data) (by omega) rfl (fun _ => rfl),
   retry_semantics.2.2.2.2.2 wGetRecover "7".data 2 7 ⟨none, none, 0⟩
     (fun _ => "down".data) (by omega) rfl
     (fun j hj => by
        have hj0 : j = 0 := by omega
        subst hj0
        rfl)
     rfl⟩
